import Mathlib

/-!
# REST facade over the retail schema: embedding and verified properties

Shallow embedding of the route handlers of `src/routes/*.mjs`.

* A handler callback `(err, results) => ...` is a function of the two callback
  arguments returning the final state of the Express response object.
* JavaScript objects are association lists read with `List.lookup`; the most
  recent assignment of a property comes first.
* The sales aggregation of `facturaciones.mjs` is a monadic left fold over the
  flat join rows; `none` stands for a thrown `TypeError`.
-/

set_option autoImplicit false

namespace Facturacion

/-! ## Express response object -/

/-- Error object handed to a query callback by the MySQL driver. -/
structure StoreError where
  code : String
  errno : Int
  sqlMessage : String
deriving DecidableEq, Repr

/-- Payload of one `res.send` / `res.json` call: a text, or a JSON value of type `β`. -/
inductive Body (β : Type) where
  | text (s : String)
  | json (v : β)
deriving DecidableEq, Repr

/-- State of the Express response object `res`: the status code and the bodies sent so far. -/
structure Res (β : Type) where
  statusCode : Nat
  sent : List (Body β)
deriving DecidableEq, Repr

/-- Fresh response object; Express starts with status 200. -/
def Res.fresh {β : Type} : Res β := ⟨200, []⟩

/-- Embedding of `res.status(code)`. -/
def Res.status {β : Type} (res : Res β) (code : Nat) : Res β :=
  { res with statusCode := code }

/-- Embedding of `res.send(text)` with a string argument. -/
def Res.send {β : Type} (res : Res β) (s : String) : Res β :=
  { res with sent := res.sent ++ [Body.text s] }

/-- Embedding of `res.json(v)`, and of `res.send(v)` with an object argument. -/
def Res.json {β : Type} (res : Res β) (v : β) : Res β :=
  { res with sent := res.sent ++ [Body.json v] }

/-! ## Sales aggregation (`routes/facturaciones.mjs`) -/

/-- One row of the flat result of `queryVentas`, column types as in the Swagger schema of
the file. `fecha` is the sale date as a day number, so that the order of the store on dates
is the order of `Int`. -/
structure Row where
  venta_id : Int
  cliente : Int
  vendedor : Int
  total : ℚ
  fecha : Int
  cliente_nombre : String
  dpi : String
  cod_pro : String
  cantidad : Int
  precio : ℚ
  producto_descripcion : String
  marca : String
  color : String
deriving DecidableEq, Repr

/-- Nested client object of a sale document. -/
structure ClienteDoc where
  id : Int
  nombre : String
  dpi : String
deriving DecidableEq, Repr

/-- One entry of `detalles`. -/
structure DetalleDoc where
  cod_pro : String
  cantidad : Int
  precio : ℚ
  producto_descripcion : String
  marca : String
  color : String
deriving DecidableEq, Repr

/-- Sale document of the response array. -/
structure VentaDoc where
  venta_id : Int
  cliente : ClienteDoc
  vendedor : Int
  total : ℚ
  fecha : Int
  detalles : List DetalleDoc
deriving DecidableEq, Repr

/-- Object literal assigned to `ventasMap[row.venta_id]` on first encounter (lines 122-133). -/
def shell (row : Row) : VentaDoc :=
  { venta_id := row.venta_id
    cliente := { id := row.cliente, nombre := row.cliente_nombre, dpi := row.dpi }
    vendedor := row.vendedor
    total := row.total
    fecha := row.fecha
    detalles := [] }

/-- Object literal pushed onto `detalles` for every row (lines 137-144). -/
def detalleOf (row : Row) : DetalleDoc :=
  { cod_pro := row.cod_pro
    cantidad := row.cantidad
    precio := row.precio
    producto_descripcion := row.producto_descripcion
    marca := row.marca
    color := row.color }

/-- Local state of the grouping pass. `ventas` is the output array. `ventasMap` is the plain
object used as a map: its values are references to the documents, and a reference is the
position of the document in `ventas` (every document is pushed to `ventas` when it is
created and is never removed). An integer `venta_id` is turned into the property key of its
decimal text, which is different for different integers and is never the name of a property
inherited from `Object.prototype`, so the keys are the integers themselves. -/
structure AggState where
  ventas : List VentaDoc
  ventasMap : List (Int × Nat)
deriving DecidableEq, Repr

/-- State before the pass: `const ventas = []; const ventasMap = {};`. -/
def AggState.init : AggState := ⟨[], []⟩

/-- Body of the `results.forEach` callback (lines 120-145). `none` is the `TypeError` that
`ventasMap[row.venta_id].detalles` raises when the lookup gives `undefined` (a reference
that points outside `ventas` is answered the same way). -/
def forEachStep (st : AggState) (row : Row) : Option AggState :=
  let st1 : AggState :=
    match st.ventasMap.lookup row.venta_id with
    | none =>
        { ventas := st.ventas ++ [shell row]
          ventasMap := (row.venta_id, st.ventas.length) :: st.ventasMap }
    | some _ => st
  match st1.ventasMap.lookup row.venta_id with
  | none => none
  | some ref =>
      match st1.ventas[ref]? with
      | none => none
      | some doc =>
          some { st1 with
            ventas := st1.ventas.set ref { doc with detalles := doc.detalles ++ [detalleOf row] } }

/-- The grouping pass: `results.forEach(...)` from the empty state, giving `ventas`. -/
def groupRows (results : List Row) : Option (List VentaDoc) :=
  (results.foldlM forEachStep AggState.init).map AggState.ventas

/-- Callback of `req.db.query(queryVentas, ...)` in `router.get('/')` (lines 110-148).
On the error path `results` is not read. -/
def facturacionesCallback (err : Option StoreError) (results : List Row) :
    Option (Res (List VentaDoc)) :=
  match err with
  | some _ => some ((Res.fresh.status 500).send "Error al obtener las ventas.")
  | none =>
      match groupRows results with
      | none => none
      | some ventas => some (Res.fresh.json ventas)

/-! ### Reference description of the grouping pass -/

/-- Rows that are the first of their sale: a row is kept when no earlier row has its
`venta_id`. -/
def firstRows : List Row → List Row
  | [] => []
  | r :: rs => r :: (firstRows rs).filter (fun x => decide (x.venta_id ≠ r.venta_id))

/-- Line items of sale `k` among `rows`, in row order. -/
def detallesOf (rows : List Row) (k : Int) : List DetalleDoc :=
  (rows.filter (fun x => decide (x.venta_id = k))).map detalleOf

/-- Document of the sale of `r` with respect to `rows`. -/
def docOf (rows : List Row) (r : Row) : VentaDoc :=
  { shell r with detalles := detallesOf rows r.venta_id }

/-- Closed form of the result of the grouping pass. -/
def groupSpec (rows : List Row) : List VentaDoc :=
  (firstRows rows).map (docOf rows)

/-! ### The source query of the aggregation, over a model of the four tables -/

/-- Row of table `ventas`. -/
structure VentaRec where
  id : Int
  cliente : Int
  vendedor : Int
  total : ℚ
  fecha : Int
deriving DecidableEq, Repr

/-- Row of table `clientes`. -/
structure ClienteRec where
  id : Int
  dpi : String
  nombre : String
  telefono : String
  direccion : String
  razon : String
deriving DecidableEq, Repr

/-- Row of table `detalle`. -/
structure DetalleRec where
  id : Int
  cod_pro : String
  cantidad : Int
  precio : ℚ
  id_venta : Int
deriving DecidableEq, Repr

/-- Row of table `productos`. -/
structure ProductoRec where
  id : Int
  codigo : String
  descripcion : String
  proveedor : String
  marca : String
  color : String
  stock : Int
  precio : ℚ
deriving DecidableEq, Repr

/-- State of the four tables read by `queryVentas`, each in storage order. -/
structure Db where
  ventas : List VentaRec
  clientes : List ClienteRec
  detalle : List DetalleRec
  productos : List ProductoRec
deriving DecidableEq, Repr

/-- The SELECT list of `queryVentas` (lines 100-102) for one combination of joined rows. -/
def selectRow (v : VentaRec) (c : ClienteRec) (d : DetalleRec) (p : ProductoRec) : Row :=
  { venta_id := v.id
    cliente := v.cliente
    vendedor := v.vendedor
    total := v.total
    fecha := v.fecha
    cliente_nombre := c.nombre
    dpi := c.dpi
    cod_pro := d.cod_pro
    cantidad := d.cantidad
    precio := d.precio
    producto_descripcion := p.descripcion
    marca := p.marca
    color := p.color }

/-- Rows that the three JOIN clauses (lines 103-106) give for the sale `v`. -/
def joinVenta (db : Db) (v : VentaRec) : List Row :=
  (db.clientes.filter (fun c => decide (v.cliente = c.id))).flatMap fun c =>
    (db.detalle.filter (fun d => decide (v.id = d.id_venta))).flatMap fun d =>
      (db.productos.filter (fun p => decide (d.cod_pro = p.codigo))).map fun p =>
        selectRow v c d p

/-- The inner join `ventas JOIN clientes JOIN detalle JOIN productos` before ordering. -/
def joinRows (db : Db) : List Row :=
  db.ventas.flatMap (joinVenta db)

/-- The query `queryVentas`: the inner join, then `ORDER BY v.fecha DESC`, modelled as a
stable sort (rows with equal dates keep their join order). -/
def queryVentas (db : Db) : List Row :=
  (joinRows db).insertionSort (fun a b => b.fecha ≤ a.fecha)

/-- The entry `e` of a `detalles` list is the line item `li` with the fields of its
product: the three columns of `li`, and `descripcion`, `marca` and `color` of a stored
product whose `codigo` is `li.cod_pro`. -/
def EntryOf (db : Db) (e : DetalleDoc) (li : DetalleRec) : Prop :=
  e.cod_pro = li.cod_pro ∧ e.cantidad = li.cantidad ∧ e.precio = li.precio ∧
  ∃ p ∈ db.productos, p.codigo = li.cod_pro ∧
    e.producto_descripcion = p.descripcion ∧ e.marca = p.marca ∧ e.color = p.color

/-- Example store state: sale 1 with two line items on two products, sale 2 with none. -/
def exampleDb : Db :=
  { ventas := [⟨1, 10, 3, 500, 20⟩, ⟨2, 10, 3, 80, 25⟩]
    clientes := [⟨10, "123456789", "Juan", "5555", "Zona 1", "JP"⟩]
    detalle := [⟨1, "P001", 2, 100, 1⟩, ⟨2, "P002", 3, 100, 1⟩]
    productos := [⟨1, "P001", "Producto A", "Prov", "Marca A", "Rojo", 10, 100⟩,
                  ⟨2, "P002", "Producto B", "Prov", "Marca B", "Azul", 5, 100⟩] }

/-- Example rows: two sales, the later one first, rows of the first sale not contiguous. -/
def exampleRows : List Row :=
  [ ⟨7, 10, 3, 80, 25, "Juan", "123456789", "P001", 1, 80, "Producto A", "Marca A", "Rojo"⟩,
    ⟨7, 10, 3, 80, 25, "Juan", "123456789", "P002", 2, 10, "Producto B", "Marca B", "Azul"⟩,
    ⟨4, 10, 3, 500, 20, "Juan", "123456789", "P001", 5, 100, "Producto A", "Marca A", "Rojo"⟩ ]

/-! ## Uniform CRUD handlers (`routes/productos.mjs`, `proveedores.mjs`, `clientes.mjs`,
`config.mjs`, `ventas.mjs`, `detalle.mjs`) -/

/-- JSON value, as produced by the body parser and by the driver. -/
inductive JVal where
  | null
  | bool (b : Bool)
  | num (n : Int)
  | str (s : String)
  | arr (items : List JVal)
  | obj (fields : List (String × JVal))

/-- JavaScript object: its property assignments, the most recent first, read with
`List.lookup` (`none` is `undefined`). -/
abbrev JSObj := List (String × JVal)

/-- Object spread: `spread target src` is the object literal that first holds the properties
of `target` and then `...src`; every property of `src` is assigned after those of `target`. -/
def spread (target src : JSObj) : JSObj := src ++ target

/-- The six resources with the uniform CRUD routes. -/
inductive Resource where
  | productos
  | proveedores
  | clientes
  | config
  | ventas
  | detalle
deriving DecidableEq, Repr

/-- Text sent with status 500 by the callback of `router.post('/')`. -/
def Resource.createErrorText : Resource → String
  | .productos => "Error executing query"
  | .proveedores => "Error executing query"
  | .clientes => "Error executing query"
  | .config => "Error ejecutando la consulta"
  | .ventas => "Error ejecutando la consulta"
  | .detalle => "Error ejecutando la consulta"

/-- Text sent with status 500 by the callback of `router.get('/:id')`. -/
def Resource.readErrorText : Resource → String
  | .productos => "Error executing query"
  | .proveedores => "Error executing query"
  | .clientes => "Error executing query"
  | .config => "Error ejecutando la consulta"
  | .ventas => "Error ejecutando la consulta"
  | .detalle => "Error ejecutando la consulta"

/-- Text sent with status 500 by the callbacks of `router.put('/:id')` and
`router.delete('/:id')` (the same text in both, in each of the six routers). -/
def Resource.writeErrorText : Resource → String
  | .productos => "Error executing query"
  | .proveedores => "Error ejecutando la consulta"
  | .clientes => "Error executing query"
  | .config => "Error ejecutando la consulta"
  | .ventas => "Error ejecutando la consulta"
  | .detalle => "Error ejecutando la consulta"

/-- Text sent with status 404 by the callback of `router.get('/:id')`. -/
def Resource.notFoundText : Resource → String
  | .productos => "Producto no encontrado"
  | .proveedores => "Proveedor no encontrado"
  | .clientes => "Cliente no encontrado"
  | .config => "Configuración no encontrada"
  | .ventas => "Venta no encontrada"
  | .detalle => "Detalle no encontrado"

/-- Acknowledgement sent with status 200 by the callback of `router.put('/:id')`. -/
def Resource.updatedText : Resource → String
  | .productos => "Producto actualizado exitosamente"
  | .proveedores => "Proveedor actualizado exitosamente"
  | .clientes => "Cliente actualizado exitosamente"
  | .config => "Configuración actualizada exitosamente"
  | .ventas => "Venta actualizada exitosamente"
  | .detalle => "Detalle actualizado exitosamente"

/-- Acknowledgement sent with status 200 by the callback of `router.delete('/:id')`. -/
def Resource.deletedText : Resource → String
  | .productos => "Producto eliminado exitosamente"
  | .proveedores => "Proveedor eliminado exitosamente"
  | .clientes => "Cliente eliminado exitosamente"
  | .config => "Configuración eliminada exitosamente"
  | .ventas => "Venta eliminada exitosamente"
  | .detalle => "Detalle eliminado exitosamente"

/-- Body fields that `router.post('/')` and `router.put('/:id')` of the resource destructure
and bind to the placeholders, in the order of the value list; they carry the names of the
columns of the INSERT and UPDATE statements. -/
def Resource.columns : Resource → List String
  | .productos => ["codigo", "descripcion", "proveedor", "marca", "color", "stock", "precio"]
  | .proveedores => ["ruc", "nombre", "telefono", "direccion", "razon"]
  | .clientes => ["dpi", "nombre", "telefono", "direccion", "razon"]
  | .config => ["ruc", "nombre", "telefono", "direccion", "razon"]
  | .ventas => ["cliente", "vendedor", "total", "fecha"]
  | .detalle => ["cod_pro", "cantidad", "precio", "id_venta"]

/-- The parts of the request a handler reads: `req.body`, and `req.params.id` as the integer
the store reads it as. -/
structure Request where
  body : JSObj
  id : Int

/-- Result object of an INSERT, UPDATE or DELETE statement. -/
structure OkPacket where
  insertId : Int
  affectedRows : Nat
  changedRows : Nat
deriving DecidableEq, Repr

/-- Callback of the query of `router.post('/')`: on success it sends, with status 201, the
object literal that holds `id: results.insertId` followed by `...req.body`. -/
def createCallback (R : Resource) (req : Request) (err : Option StoreError)
    (results : OkPacket) : Res JSObj :=
  match err with
  | some _ => (Res.fresh.status 500).send R.createErrorText
  | none => (Res.fresh.status 201).json (spread [("id", JVal.num results.insertId)] req.body)

/-- Callback of the query of `router.get('/:id')`. -/
def readByIdCallback (R : Resource) (_req : Request) (err : Option StoreError)
    (results : List JSObj) : Res JSObj :=
  match err with
  | some _ => (Res.fresh.status 500).send R.readErrorText
  | none =>
      match results with
      | row :: _ => (Res.fresh.status 200).json row
      | [] => (Res.fresh.status 404).send R.notFoundText

/-- Callback of the query of `router.put('/:id')`. -/
def updateCallback (R : Resource) (_req : Request) (err : Option StoreError)
    (_results : OkPacket) : Res JSObj :=
  match err with
  | some _ => (Res.fresh.status 500).send R.writeErrorText
  | none => (Res.fresh.status 200).send R.updatedText

/-- Callback of the query of `router.delete('/:id')`. -/
def deleteCallback (R : Resource) (_req : Request) (err : Option StoreError)
    (_results : OkPacket) : Res JSObj :=
  match err with
  | some _ => (Res.fresh.status 500).send R.writeErrorText
  | none => (Res.fresh.status 200).send R.deletedText

/-! ### Model of one table of the store and of the by-id statements -/

/-- Stored row of a resource table: the identity column and the other columns. -/
structure Record where
  id : Int
  cols : JSObj

/-- One table of the store, in storage order. -/
abbrev Table := List Record

/-- Row object that `SELECT *` delivers for a stored row. -/
def Record.toRow (r : Record) : JSObj := ("id", JVal.num r.id) :: r.cols

/-- Values bound to the column placeholders: the body field of each column of the
statement (a missing field is bound as NULL). -/
def Resource.assignments (R : Resource) (body : JSObj) : JSObj :=
  R.columns.map fun c => (c, (body.lookup c).getD JVal.null)

/-- Store answer to `SELECT * FROM t WHERE id = ?`. -/
def Table.selectById (t : Table) (id : Int) : List JSObj :=
  (t.filter (fun r => decide (r.id = id))).map Record.toRow

/-- Store effect of and answer to `UPDATE t SET ... WHERE id = ?`: in every row with the id,
each column of the SET list is assigned its new value on top of the stored columns. -/
def Table.updateById (t : Table) (id : Int) (cols : JSObj) : Table × OkPacket :=
  (t.map (fun r => if r.id = id then { r with cols := spread r.cols cols } else r),
   { insertId := 0
     affectedRows := (t.filter (fun r => decide (r.id = id))).length
     changedRows := (t.filter (fun r => decide (r.id = id))).length })

/-- Store effect of and answer to `DELETE FROM t WHERE id = ?`. -/
def Table.deleteById (t : Table) (id : Int) : Table × OkPacket :=
  (t.filter (fun r => decide (r.id ≠ id)),
   { insertId := 0
     affectedRows := (t.filter (fun r => decide (r.id = id))).length
     changedRows := 0 })

/-- GET /R/:id on a healthy store holding table `t`. -/
def getById (R : Resource) (t : Table) (req : Request) : Res JSObj :=
  readByIdCallback R req none (t.selectById req.id)

/-- PUT /R/:id on a healthy store holding table `t`: the new table and the response. -/
def putById (R : Resource) (t : Table) (req : Request) : Table × Res JSObj :=
  ((t.updateById req.id (R.assignments req.body)).1,
   updateCallback R req none (t.updateById req.id (R.assignments req.body)).2)

/-- DELETE /R/:id on a healthy store holding table `t`: the new table and the response. -/
def deleteById (R : Resource) (t : Table) (req : Request) : Table × Res JSObj :=
  ((t.deleteById req.id).1, deleteCallback R req none (t.deleteById req.id).2)

/-- Request body of the Swagger example of schema `Producto`, which carries an `id`. -/
def exampleProductoBody : JSObj :=
  [("id", JVal.num 1), ("codigo", JVal.str "COD001"), ("descripcion", JVal.str "Producto de prueba"),
   ("proveedor", JVal.str "Proveedor X"), ("marca", JVal.str "Marca Y"), ("color", JVal.str "Rojo"),
   ("stock", JVal.num 10), ("precio", JVal.num 100)]

/-- Invariant of the grouping pass after the rows `pre` have been visited: `ventas` is the
closed form, a key missing from `ventasMap` is the id of no visited row, and a key present
in it refers to the document of that sale. -/
def AggInv (pre : List Row) (st : AggState) : Prop :=
  st.ventas = groupSpec pre ∧
  (∀ k, st.ventasMap.lookup k = none → ∀ x ∈ pre, x.venta_id ≠ k) ∧
  (∀ k ref, st.ventasMap.lookup k = some ref →
    ∃ x, (firstRows pre)[ref]? = some x ∧ x.venta_id = k)

/-! ### INSERT and the maximum identity in the model store -/

/-- Largest of `m` and the ids of the rows of `t`. -/
def Table.maxFrom (m : Int) (t : Table) : Int :=
  t.foldl (fun acc r => max acc r.id) m

/-- Identity that the store assigns to the next inserted row: greater than 0 and than every
stored id. -/
def Table.nextId (t : Table) : Int := Table.maxFrom 0 t + 1

/-- Store effect of and answer to `INSERT INTO t (...) VALUES (...)`: the row is stored under
a fresh identity, which is reported as `insertId`. -/
def Table.insert (t : Table) (cols : JSObj) : Table × OkPacket :=
  (t ++ [⟨t.nextId, cols⟩], { insertId := t.nextId, affectedRows := 1, changedRows := 0 })

/-- Value of `MAX(id)` over the table: `none` (NULL) when the table is empty. -/
def Table.maxId : Table → Option Int
  | [] => none
  | r :: rs => some (Table.maxFrom r.id rs)

/-- Store answer to `SELECT COALESCE(MAX(id), 0) AS maximo_id_venta FROM ventas`: one row. -/
def Table.selectMaxId (t : Table) : List JSObj :=
  [[("maximo_id_venta", JVal.num (t.maxId.getD 0))]]

/-- POST /R on a healthy store holding table `t`: the new table and the response. -/
def postCreate (R : Resource) (t : Table) (req : Request) : Table × Res JSObj :=
  ((t.insert (R.assignments req.body)).1,
   createCallback R req none (t.insert (R.assignments req.body)).2)

/-! ### The other handlers of the routers -/

/-- Text sent with status 500 by the callback of `router.get('/')` of a resource. -/
def Resource.listErrorText : Resource → String
  | .productos => "Error executing query"
  | .proveedores => "Error executing query"
  | .clientes => "Error executing query"
  | .config => "Error ejecutando la consulta"
  | .ventas => "Error ejecutando la consulta"
  | .detalle => "Error ejecutando la consulta"

/-- Callback of the query of `router.get('/')` of a resource: all rows, as an array. -/
def listCallback (R : Resource) (_req : Request) (err : Option StoreError)
    (results : List JSObj) : Res (List JSObj) :=
  match err with
  | some _ => (Res.fresh.status 500).send R.listErrorText
  | none => (Res.fresh.status 200).json results

/-- Callback of the query of `router.get('/codigo/:codigo')` (`productos.mjs`, lines 163-174). -/
def codigoCallback (_req : Request) (err : Option StoreError) (results : List JSObj) :
    Res JSObj :=
  match err with
  | some _ => (Res.fresh.status 500).send "Error ejecutando la consulta"
  | none =>
      match results with
      | row :: _ => (Res.fresh.status 200).json row
      | [] => (Res.fresh.status 404).send "Producto no encontrado"

/-- Callback of the query of `router.get('/maximo-id')` (`ventas.mjs`, lines 96-103): it
sends `results[0]`, which is `undefined` (`none`) for an empty result. -/
def maximoIdCallback (_req : Request) (err : Option StoreError) (results : List JSObj) :
    Res (Option JSObj) :=
  match err with
  | some _ => (Res.fresh.status 500).send "Error ejecutando la consulta"
  | none => (Res.fresh.status 200).json results[0]?

/-- GET /ventas/maximo-id on a healthy store holding the table `t` of sales. -/
def getMaximoId (t : Table) (req : Request) : Res (Option JSObj) :=
  maximoIdCallback req none t.selectMaxId

/-- The object `userData` of `usuarios.mjs` (lines 78-82), built from the first row: the
properties `id`, `usuario` and `pass`, assigned in this order. A property whose value is
`undefined` is not serialised and is left out. -/
def userData (row : JSObj) : JSObj :=
  ["pass", "usuario", "id"].filterMap fun k => (row.lookup k).map fun v => (k, v)

/-- Callback of the query of `router.post('/')` of `usuarios.mjs` (lines 70-87). -/
def usuariosCallback (_req : Request) (err : Option StoreError) (results : List JSObj) :
    Res JSObj :=
  match err with
  | some _ => (Res.fresh.status 500).send "Error ejecutando la consulta"
  | none =>
      match results with
      | row :: _ => (Res.fresh.status 200).json (userData row)
      | [] => (Res.fresh.status 401).send "Usuario o contraseña incorrectos"

/-- Row of table `usuarios`. -/
structure UsuarioRec where
  id : Int
  usuario : String
  pass : String
deriving DecidableEq, Repr

/-- Row object that `SELECT *` delivers for a stored user. -/
def UsuarioRec.toRow (u : UsuarioRec) : JSObj :=
  [("id", JVal.num u.id), ("usuario", JVal.str u.usuario), ("pass", JVal.str u.pass)]

/-- Rows of the stored users whose `usuario` is exactly `u` and whose `pass` is exactly `p`. -/
def matchUsuario (users : List UsuarioRec) (u p : String) : List JSObj :=
  (users.filter (fun r => decide (r.usuario = u ∧ r.pass = p))).map UsuarioRec.toRow

/-- A store of users as the handler sees it: the two callback arguments it gives for
`SELECT * FROM usuarios WHERE usuario = ? AND pass = ?` with the two bound values. The
handler binds whatever JSON values the body holds for `usuario` and `pass`. -/
abbrev UsuarioStore := JVal → JVal → Option StoreError × List JSObj

/-- The store holds `users` and matches `usuario` and `pass` by exact string equality: two
bound strings are answered without error by the rows that carry both. Nothing is assumed
of the answer to a bound value that is no string. -/
def MatchesByStringEquality (users : List UsuarioRec) (db : UsuarioStore) : Prop :=
  ∀ u p : String, db (JVal.str u) (JVal.str p) = (none, matchUsuario users u p)

/-- POST /usuarios against the store `db`: the statement is issued with the body fields
`usuario` and `pass` as bound values (a missing field is bound as NULL), and the callback
gets what the store answers. -/
def postUsuarios (db : UsuarioStore) (req : Request) : Res JSObj :=
  usuariosCallback req
    (db ((req.body.lookup "usuario").getD JVal.null)
      ((req.body.lookup "pass").getD JVal.null)).1
    (db ((req.body.lookup "usuario").getD JVal.null)
      ((req.body.lookup "pass").getD JVal.null)).2

/-- Whether a bound value is the object with the single property `pass: 1`. -/
def isPassOne : JVal → Bool
  | JVal.obj [(k, JVal.num 1)] => k == "pass"
  | _ => false

/-- One store that matches by exact string equality and also answers an object value the
way the `mysql` driver writes it into the statement: the object with `pass: 1`, bound to
`pass = ?`, is written as a comparison of the column with itself, which holds in every
row, so the rows with the bound `usuario` are returned. Other values match no row. -/
def objectFormattingStore (users : List UsuarioRec) : UsuarioStore := fun usuario pass =>
  match usuario with
  | JVal.str u =>
      match pass with
      | JVal.str p => (none, matchUsuario users u p)
      | other =>
          if isPassOne other then
            (none, (users.filter (fun r => decide (r.usuario = u))).map UsuarioRec.toRow)
          else (none, [])
  | _ => (none, [])

/-- Example table of users. -/
def exampleUsers : List UsuarioRec := [⟨1, "ana", "secreto"⟩]

/-- Request whose `pass` is an object, not the password of the stored user. -/
def exampleObjectLogin : Request :=
  ⟨[("usuario", JVal.str "ana"), ("pass", JVal.obj [("pass", JVal.num 1)])], 0⟩

/-- Body of a sale that also carries a field `nota`, which is no column of `ventas`. -/
def exampleVentaBody : JSObj :=
  [("cliente", JVal.num 1), ("vendedor", JVal.num 2), ("total", JVal.num 100),
   ("fecha", JVal.str "2024-09-01"), ("nota", JVal.str "x")]

/-! ### The statement that each handler passes to `req.db.query` -/

/-- SQL text of `router.post('/')` of the resource. -/
def Resource.insertSql : Resource → String
  | .productos => "INSERT INTO productos (codigo, descripcion, proveedor, marca, color, stock, precio) VALUES (?, ?, ?, ?, ?, ?, ?)"
  | .proveedores => "INSERT INTO proveedor (ruc, nombre, telefono, direccion, razon) VALUES (?, ?, ?, ?, ?)"
  | .clientes => "INSERT INTO clientes (dpi, nombre, telefono, direccion, razon) VALUES (?, ?, ?, ?, ?)"
  | .config => "INSERT INTO config (ruc, nombre, telefono, direccion, razon) VALUES (?, ?, ?, ?, ?)"
  | .ventas => "INSERT INTO ventas (cliente, vendedor, total, fecha) VALUES (?, ?, ?, ?)"
  | .detalle => "INSERT INTO detalle (cod_pro, cantidad, precio, id_venta) VALUES (?, ?, ?, ?)"

/-- SQL text of `router.get('/')` of the resource. -/
def Resource.selectAllSql : Resource → String
  | .productos => "SELECT * FROM productos"
  | .proveedores => "SELECT * FROM proveedor"
  | .clientes => "SELECT * FROM clientes"
  | .config => "SELECT * FROM config"
  | .ventas => "SELECT * FROM ventas"
  | .detalle => "SELECT * FROM detalle"

/-- SQL text of `router.get('/:id')` of the resource. -/
def Resource.selectByIdSql : Resource → String
  | .productos => "SELECT * FROM productos WHERE id = ?"
  | .proveedores => "SELECT * FROM proveedor WHERE id = ?"
  | .clientes => "SELECT * FROM clientes WHERE id = ?"
  | .config => "SELECT * FROM config WHERE id = ?"
  | .ventas => "SELECT * FROM ventas WHERE id = ?"
  | .detalle => "SELECT * FROM detalle WHERE id = ?"

/-- SQL text of `router.put('/:id')` of the resource. -/
def Resource.updateSql : Resource → String
  | .productos => "UPDATE productos SET codigo = ?, descripcion = ?, proveedor = ?, marca = ?, color = ?, stock = ?, precio = ? WHERE id = ?"
  | .proveedores => "UPDATE proveedor SET ruc = ?, nombre = ?, telefono = ?, direccion = ?, razon = ? WHERE id = ?"
  | .clientes => "UPDATE clientes SET dpi = ?, nombre = ?, telefono = ?, direccion = ?, razon = ? WHERE id = ?"
  | .config => "UPDATE config SET ruc = ?, nombre = ?, telefono = ?, direccion = ?, razon = ? WHERE id = ?"
  | .ventas => "UPDATE ventas SET cliente = ?, vendedor = ?, total = ?, fecha = ? WHERE id = ?"
  | .detalle => "UPDATE detalle SET cod_pro = ?, cantidad = ?, precio = ?, id_venta = ? WHERE id = ?"

/-- SQL text of `router.delete('/:id')` of the resource. -/
def Resource.deleteSql : Resource → String
  | .productos => "DELETE FROM productos WHERE id = ?"
  | .proveedores => "DELETE FROM proveedor WHERE id = ?"
  | .clientes => "DELETE FROM clientes WHERE id = ?"
  | .config => "DELETE FROM config WHERE id = ?"
  | .ventas => "DELETE FROM ventas WHERE id = ?"
  | .detalle => "DELETE FROM detalle WHERE id = ?"

/-- SQL text `queryVentas` of `facturaciones.mjs` (lines 99-108), a template literal without
placeholders of the language. -/
def queryVentasSql : String :=
  "\n        SELECT v.id AS venta_id, v.cliente, v.vendedor, v.total, v.fecha, \n               c.nombre AS cliente_nombre, c.dpi, d.cod_pro, d.cantidad, d.precio, \n               p.descripcion AS producto_descripcion, p.marca, p.color\n        FROM ventas v\n        JOIN clientes c ON v.cliente = c.id\n        JOIN detalle d ON v.id = d.id_venta\n        JOIN productos p ON d.cod_pro = p.codigo\n        ORDER BY v.fecha DESC;\n    "

/-- The request as Express hands it to a handler: the parts of `Request`, and `req.params`,
the texts of the path parameters. -/
structure HttpRequest extends Request where
  params : List (String × String)

/-- Value of a destructured path parameter, as it is bound to a placeholder (`undefined`,
bound as NULL, when the route has no such parameter). -/
def HttpRequest.param (req : HttpRequest) (name : String) : JVal :=
  match req.params.lookup name with
  | some text => JVal.str text
  | none => JVal.null

/-- Values of the destructured body fields `fields`, in order, as they are bound to the
placeholders (a missing field is `undefined` and is bound as NULL). -/
def bodyValues (fields : List String) (body : JSObj) : List JVal :=
  fields.map fun c => (body.lookup c).getD JVal.null

/-- The two arguments before the callback of a call `req.db.query(sql, values, callback)`;
`values` is empty when the call has no value list. -/
structure Query where
  sql : String
  values : List JVal

/-- The route handlers of the eight routers. -/
inductive Handler where
  | create (R : Resource)
  | list (R : Resource)
  | readById (R : Resource)
  | update (R : Resource)
  | delete (R : Resource)
  | productoPorCodigo
  | maximoId
  | validarUsuario
  | facturaciones
deriving DecidableEq, Repr

/-- The statement and the bound values of the one call of `req.db.query` in each handler. -/
def Handler.query : Handler → HttpRequest → Query
  | .create R, req => ⟨R.insertSql, bodyValues R.columns req.body⟩
  | .list R, _ => ⟨R.selectAllSql, []⟩
  | .readById R, req => ⟨R.selectByIdSql, [req.param "id"]⟩
  | .update R, req => ⟨R.updateSql, bodyValues R.columns req.body ++ [req.param "id"]⟩
  | .delete R, req => ⟨R.deleteSql, [req.param "id"]⟩
  | .productoPorCodigo, req =>
      ⟨"SELECT * FROM productos WHERE codigo = ?", [req.param "codigo"]⟩
  | .maximoId, _ => ⟨"SELECT COALESCE(MAX(id), 0) AS maximo_id_venta FROM ventas", []⟩
  | .validarUsuario, req =>
      ⟨"SELECT * FROM usuarios WHERE usuario = ? AND pass = ?",
        bodyValues ["usuario", "pass"] req.body⟩
  | .facturaciones, _ => ⟨queryVentasSql, []⟩

/-- Type of the `results` argument that the driver gives to the callback of the handler:
an array of rows for a SELECT, a result object for INSERT, UPDATE and DELETE. -/
def Handler.Results : Handler → Type
  | .create _ => OkPacket
  | .list _ => List JSObj
  | .readById _ => List JSObj
  | .update _ => OkPacket
  | .delete _ => OkPacket
  | .productoPorCodigo => List JSObj
  | .maximoId => List JSObj
  | .validarUsuario => List JSObj
  | .facturaciones => List Row

/-- Type of the JSON payload that the handler may send. -/
def Handler.Payload : Handler → Type
  | .create _ => JSObj
  | .list _ => List JSObj
  | .readById _ => JSObj
  | .update _ => JSObj
  | .delete _ => JSObj
  | .productoPorCodigo => JSObj
  | .maximoId => Option JSObj
  | .validarUsuario => JSObj
  | .facturaciones => List VentaDoc

/-- The callback of each handler, as a function of the request and of the two callback
arguments; `none` is a thrown exception. -/
def Handler.callback : (h : Handler) → HttpRequest → Option StoreError → h.Results →
    Option (Res h.Payload)
  | .create R, req, err, results => some (createCallback R req.toRequest err results)
  | .list R, req, err, results => some (listCallback R req.toRequest err results)
  | .readById R, req, err, results => some (readByIdCallback R req.toRequest err results)
  | .update R, req, err, results => some (updateCallback R req.toRequest err results)
  | .delete R, req, err, results => some (deleteCallback R req.toRequest err results)
  | .productoPorCodigo, req, err, results => some (codigoCallback req.toRequest err results)
  | .maximoId, req, err, results => some (maximoIdCallback req.toRequest err results)
  | .validarUsuario, req, err, results => some (usuariosCallback req.toRequest err results)
  | .facturaciones, _, err, results => facturacionesCallback err results

/-- What one run of a handler does: the calls of `req.db.query` it makes, and the final
state of the response object (`none` when the callback throws). -/
structure Exchange (h : Handler) where
  queries : List Query
  response : Option (Res h.Payload)

/-- One run of the handler `h` on the request `req` against a store `db`, which answers a
query with the two callback arguments: the handler builds its statement, calls
`req.db.query` once, and the callback writes the response. -/
def Handler.handle (h : Handler) (req : HttpRequest)
    (db : Query → Option StoreError × h.Results) : Exchange h :=
  { queries := [h.query req]
    response := h.callback req (db (h.query req)).1 (db (h.query req)).2 }

/-! ### Routing -/

/-- HTTP methods of the routes. -/
inductive Method where
  | get
  | post
  | put
  | delete
deriving DecidableEq, Repr

/-- Segment of a route path: a literal text or a named parameter `:name`. -/
inductive Seg where
  | lit (text : String)
  | param (name : String)
deriving DecidableEq, Repr

/-- One registered route `router.METHOD(path, handler)`. -/
structure Route where
  method : Method
  pattern : List Seg
  handler : Handler
deriving DecidableEq, Repr

/-- Characters of a text in lower case; routing compares literals without regard to case. -/
def lowerChars (s : String) : List Char := s.data.map Char.toLower

/-- A request path is the list of its segments, the texts between the slashes. With strict
routing off, one trailing slash (a last empty segment) is dropped. -/
def stripTrailingSlash (path : List String) : List String :=
  if path.getLast? = some "" then path.dropLast else path

/-- Value of a hexadecimal digit. -/
def hexVal (c : Char) : Option Nat :=
  if 48 ≤ c.toNat ∧ c.toNat ≤ 57 then some (c.toNat - 48)
  else if 97 ≤ c.toNat ∧ c.toNat ≤ 102 then some (c.toNat - 87)
  else if 65 ≤ c.toNat ∧ c.toNat ≤ 70 then some (c.toNat - 55)
  else none

/-- Position inside an escape `%XX` while a text is decoded. -/
inductive Escape where
  | plain
  | percent
  | digit (high : Nat)

/-- State of `decodeURIComponent` while it reads a text: the position inside an escape, the
number of continuation bytes still due for the current UTF-8 sequence, the code point read
so far with its least admissible value, and the characters decoded so far. -/
structure Decoding where
  escape : Escape
  need : Nat
  acc : Nat
  low : Nat
  out : List Char

/-- One escaped byte: an ASCII byte is a character; a lead byte opens a UTF-8 sequence of
two to four bytes; a continuation byte extends it, and the finished code point has to be
the shortest encoding, below 0x110000 and no surrogate. Anything else is a `URIError`. -/
def decodeByte (st : Decoding) (b : Nat) : Option Decoding :=
  if st.need = 0 then
    if b < 128 then some { st with escape := Escape.plain, out := st.out ++ [Char.ofNat b] }
    else if 194 ≤ b ∧ b ≤ 223 then
      some { st with escape := Escape.plain, need := 1, acc := b - 192, low := 128 }
    else if 224 ≤ b ∧ b ≤ 239 then
      some { st with escape := Escape.plain, need := 2, acc := b - 224, low := 2048 }
    else if 240 ≤ b ∧ b ≤ 244 then
      some { st with escape := Escape.plain, need := 3, acc := b - 240, low := 65536 }
    else none
  else if 128 ≤ b ∧ b ≤ 191 then
    if st.need = 1 then
      if st.low ≤ st.acc * 64 + (b - 128) ∧ st.acc * 64 + (b - 128) ≤ 1114111 ∧
          ¬ (55296 ≤ st.acc * 64 + (b - 128) ∧ st.acc * 64 + (b - 128) ≤ 57343) then
        some { escape := Escape.plain, need := 0, acc := 0, low := 0,
               out := st.out ++ [Char.ofNat (st.acc * 64 + (b - 128))] }
      else none
    else
      some { st with escape := Escape.plain, need := st.need - 1,
                     acc := st.acc * 64 + (b - 128) }
  else none

/-- One character of the text: `%` opens an escape, which needs two hexadecimal digits; a
plain character is kept, but may not stand inside a UTF-8 sequence. -/
def decodeStep (st : Decoding) (c : Char) : Option Decoding :=
  match st.escape with
  | Escape.plain =>
      if c = '%' then some { st with escape := Escape.percent }
      else if st.need = 0 then some { st with out := st.out ++ [c] }
      else none
  | Escape.percent => (hexVal c).map fun h => { st with escape := Escape.digit h }
  | Escape.digit high => (hexVal c).bind fun l => decodeByte st (high * 16 + l)

/-- Decoding of the rest of a text; at the end no escape and no UTF-8 sequence may be
open. -/
def decodeFrom : Decoding → List Char → Option (List Char)
  | st, [] =>
      match st.escape with
      | Escape.plain => if st.need = 0 then some st.out else none
      | _ => none
  | st, c :: cs =>
      match decodeStep st c with
      | none => none
      | some st2 => decodeFrom st2 cs

/-- The function `decodeURIComponent` that the router applies to the text of a path
parameter: `none` is the `URIError` of a text that does not decode. -/
def decodeParam (s : String) : Option String :=
  (decodeFrom ⟨Escape.plain, 0, 0, 0, []⟩ s.data).map String.mk

/-- Outcome of matching a route pattern against a path: no match, a match whose parameter
text does not decode, or a match with `req.params`. -/
inductive PathMatch where
  | miss
  | undecodable
  | hit (params : List (String × String))
deriving DecidableEq, Repr

/-- Match of a route pattern against the segments of a path: the whole path has to be
consumed, a literal matches its own text as it stands in the path, a parameter takes one
non-empty segment. When the pattern matches, the text of every parameter is decoded, and
the decoded values are `req.params`. -/
def matchSegs : List Seg → List String → PathMatch
  | [], [] => PathMatch.hit []
  | Seg.lit text :: ps, x :: xs =>
      if lowerChars x = lowerChars text then matchSegs ps xs else PathMatch.miss
  | Seg.param name :: ps, x :: xs =>
      if x = "" then PathMatch.miss
      else
        match matchSegs ps xs with
        | PathMatch.miss => PathMatch.miss
        | PathMatch.undecodable => PathMatch.undecodable
        | PathMatch.hit m =>
            match decodeParam x with
            | some v => PathMatch.hit ((name, v) :: m)
            | none => PathMatch.undecodable
  | _, _ => PathMatch.miss

/-- What becomes of a request in the routing layer: no route answers (404), a parameter
does not decode (400, no handler runs), or a handler runs with `req.params`. -/
inductive Routed where
  | notFound
  | badRequest
  | handler (h : Handler) (params : List (String × String))
deriving DecidableEq, Repr

/-- Routing inside a router: the routes are tried in registration order; a route whose path
matches but whose parameter does not decode ends the search with 400; the first route whose
path and method match answers (every handler responds and none calls `next`). -/
def routeIn : List Route → Method → List String → Routed
  | [], _, _ => Routed.notFound
  | r :: rs, m, path =>
      match matchSegs r.pattern (stripTrailingSlash path) with
      | PathMatch.miss => routeIn rs m path
      | PathMatch.undecodable => Routed.badRequest
      | PathMatch.hit ps =>
          if r.method = m then Routed.handler r.handler ps else routeIn rs m path

/-- Dispatch inside a router: the handler that runs, if one does, with `req.params`. -/
def dispatch (routes : List Route) (m : Method) (path : List String) :
    Option (Handler × List (String × String)) :=
  match routeIn routes m path with
  | Routed.handler h ps => some (h, ps)
  | _ => none

/-- Routes of a router with the five uniform CRUD routes, in registration order. -/
def crudRouter (R : Resource) : List Route :=
  [ ⟨Method.post, [], Handler.create R⟩,
    ⟨Method.get, [], Handler.list R⟩,
    ⟨Method.get, [Seg.param "id"], Handler.readById R⟩,
    ⟨Method.put, [Seg.param "id"], Handler.update R⟩,
    ⟨Method.delete, [Seg.param "id"], Handler.delete R⟩ ]

/-- Routes of `routes/productos.mjs`, in registration order. -/
def productosRouter : List Route :=
  [ ⟨Method.post, [], Handler.create Resource.productos⟩,
    ⟨Method.get, [], Handler.list Resource.productos⟩,
    ⟨Method.get, [Seg.param "id"], Handler.readById Resource.productos⟩,
    ⟨Method.get, [Seg.lit "codigo", Seg.param "codigo"], Handler.productoPorCodigo⟩,
    ⟨Method.put, [Seg.param "id"], Handler.update Resource.productos⟩,
    ⟨Method.delete, [Seg.param "id"], Handler.delete Resource.productos⟩ ]

/-- Routes of `routes/ventas.mjs`, in registration order. -/
def ventasRouter : List Route :=
  [ ⟨Method.post, [], Handler.create Resource.ventas⟩,
    ⟨Method.get, [Seg.lit "maximo-id"], Handler.maximoId⟩,
    ⟨Method.get, [], Handler.list Resource.ventas⟩,
    ⟨Method.get, [Seg.param "id"], Handler.readById Resource.ventas⟩,
    ⟨Method.put, [Seg.param "id"], Handler.update Resource.ventas⟩,
    ⟨Method.delete, [Seg.param "id"], Handler.delete Resource.ventas⟩ ]

/-- Routes of `routes/usuarios.mjs`. -/
def usuariosRouter : List Route := [⟨Method.post, [], Handler.validarUsuario⟩]

/-- Routes of `routes/facturaciones.mjs`. -/
def facturacionesRouter : List Route := [⟨Method.get, [], Handler.facturaciones⟩]

/-- The routers mounted by `index.mjs` with `app.use(path, router)`, in mounting order. -/
def appMounts : List (String × List Route) :=
  [ ("productos", productosRouter),
    ("proveedores", crudRouter Resource.proveedores),
    ("usuarios", usuariosRouter),
    ("clientes", crudRouter Resource.clientes),
    ("config", crudRouter Resource.config),
    ("ventas", ventasRouter),
    ("detalle", crudRouter Resource.detalle),
    ("facturaciones", facturacionesRouter) ]

/-- Routing through mounted routers: the first segment selects the router, which sees the
rest of the path; a router without a matching route passes on to the next one. -/
def routeMounts : List (String × List Route) → Method → String → List String → Routed
  | [], _, _, _ => Routed.notFound
  | e :: es, m, mount, rest =>
      if lowerChars mount = lowerChars e.1 then
        match routeIn e.2 m rest with
        | Routed.notFound => routeMounts es m mount rest
        | Routed.badRequest => Routed.badRequest
        | Routed.handler h ps => Routed.handler h ps
      else routeMounts es m mount rest

/-- Routing of a request by the application of `index.mjs`. -/
def routeApp (m : Method) (path : List String) : Routed :=
  match path with
  | [] => Routed.notFound
  | mount :: rest => routeMounts appMounts m mount rest

/-- Dispatch of a request by the application: the handler that runs, if one does, with
`req.params`. -/
def dispatchApp (m : Method) (path : List String) :
    Option (Handler × List (String × String)) :=
  match routeApp m path with
  | Routed.handler h ps => some (h, ps)
  | _ => none

/-! ### The two halves of the `forEach` callback, and flattening of the output -/

/-- The first-encounter branch of the `forEach` callback alone (lines 121-135): the state
before the lookup of line 137. -/
def firstEncounter (st : AggState) (row : Row) : AggState :=
  match st.ventasMap.lookup row.venta_id with
  | none =>
      { ventas := st.ventas ++ [shell row]
        ventasMap := (row.venta_id, st.ventas.length) :: st.ventasMap }
  | some _ => st

/-- Flat row that a document and one entry of its `detalles` stand for. -/
def unflatten (d : VentaDoc) (e : DetalleDoc) : Row :=
  { venta_id := d.venta_id
    cliente := d.cliente.id
    vendedor := d.vendedor
    total := d.total
    fecha := d.fecha
    cliente_nombre := d.cliente.nombre
    dpi := d.cliente.dpi
    cod_pro := e.cod_pro
    cantidad := e.cantidad
    precio := e.precio
    producto_descripcion := e.producto_descripcion
    marca := e.marca
    color := e.color }

/-- Flattening of an output array: one flat row per document and per entry of its
`detalles`, in order. -/
def flattenDocs (out : List VentaDoc) : List Row :=
  out.flatMap fun d => d.detalles.map (unflatten d)

/-- The rows regrouped by sale: the rows of each sale together, in input order, the sales in
the order of their first rows. -/
def regroup (rows : List Row) : List Row :=
  (firstRows rows).flatMap fun r => rows.filter (fun x => decide (x.venta_id = r.venta_id))

/-! ### Connection set-up of `index.mjs` -/

/-- The values that `index.mjs` imports from the configuration module `./config.js`, which
is not among the sources: they are taken as given. -/
structure Config where
  PORT : JVal
  DB_HOST : JVal
  DB_NAME : JVal
  DB_PASSWORD : JVal
  DB_PORT : JVal
  DB_USER : JVal

/-- Options object passed to `mysql.createConnection`. -/
structure ConnectionOptions where
  host : JVal
  database : JVal
  user : JVal
  password : JVal
  port : JVal

/-- The object literal of `index.mjs` (lines 20-26): every property is a quoted text, not
the imported binding of that name. -/
def connectionOptions (_cfg : Config) : ConnectionOptions :=
  { host := JVal.str "DB_HOST"
    database := JVal.str "DB_NAME"
    user := JVal.str "DB_USER"
    password := JVal.str "DB_PASSWORD"
    port := JVal.str "DB_PORT" }

/-- Example configuration: a local database. -/
def exampleConfig : Config :=
  { PORT := JVal.num 3000
    DB_HOST := JVal.str "localhost"
    DB_NAME := JVal.str "bd_analisis"
    DB_PASSWORD := JVal.str ""
    DB_PORT := JVal.num 3306
    DB_USER := JVal.str "root" }

/-! ### Reading the placeholders and columns of an SQL text -/

/-- Number of `?` placeholders in an SQL text. -/
def placeholderCount (sql : String) : Nat := sql.data.count '?'

/-- Column list of an INSERT text: the names between the first pair of parentheses,
separated by commas. -/
def insertColumns (sql : String) : List String :=
  ((((sql.data.dropWhile (fun c => c != '(')).drop 1).takeWhile (fun c => c != ')')).splitOn
    ',').map fun w => String.mk (w.filter (fun c => c != ' '))

/-- Words of an SQL text, separated by blanks. -/
def sqlWords (sql : String) : List String := (sql.data.splitOn ' ').map String.mk

/-- Columns of the comparisons and assignments `column = ?` of an SQL text, in order: the
words that stand right before a word `=`. -/
def columnsBeforeEquals (ws : List String) : List String :=
  (ws.zip ws.tail).filterMap fun p => if p.2 = "=" then some p.1 else none

/-! ## Lemmas on the reference description -/

theorem firstRows_cons (r : Row) (rs : List Row) :
    firstRows (r :: rs) = r :: (firstRows rs).filter (fun x => decide (x.venta_id ≠ r.venta_id)) :=
  rfl

theorem firstRows_sublist (rows : List Row) : (firstRows rows).Sublist rows := by
  induction rows with
  | nil => exact List.Sublist.slnil
  | cons r rs ih =>
    simp only [firstRows]
    exact ((List.filter_sublist _).trans ih).cons₂ r

theorem firstRows_subset {rows : List Row} {x : Row} (h : x ∈ firstRows rows) : x ∈ rows :=
  (firstRows_sublist rows).subset h

theorem mem_firstRows_ids (rows : List Row) (k : Int) :
    (∃ x ∈ firstRows rows, x.venta_id = k) ↔ (∃ x ∈ rows, x.venta_id = k) := by
  induction rows with
  | nil => simp [firstRows]
  | cons r rs ih =>
    simp only [firstRows, List.mem_cons, List.mem_filter, decide_eq_true_eq]
    constructor
    · rintro ⟨x, hx | ⟨hx, _⟩, rfl⟩
      · exact ⟨x, Or.inl hx, rfl⟩
      · obtain ⟨y, hy, hyk⟩ := ih.mp ⟨x, hx, rfl⟩
        exact ⟨y, Or.inr hy, hyk⟩
    · rintro ⟨x, hx | hx, rfl⟩
      · exact ⟨x, Or.inl hx, rfl⟩
      · by_cases hk : x.venta_id = r.venta_id
        · exact ⟨r, Or.inl rfl, hk.symm⟩
        · obtain ⟨y, hy, hyk⟩ := ih.mpr ⟨x, hx, rfl⟩
          exact ⟨y, Or.inr ⟨hy, by rw [hyk]; exact hk⟩, hyk⟩

theorem firstRows_ids_nodup (rows : List Row) :
    ((firstRows rows).map Row.venta_id).Nodup := by
  induction rows with
  | nil => simp [firstRows]
  | cons r rs ih =>
    simp only [firstRows, List.map_cons, List.nodup_cons, List.mem_map, List.mem_filter,
      decide_eq_true_eq]
    refine ⟨?_, ?_⟩
    · rintro ⟨x, ⟨_, hne⟩, hx⟩
      exact hne hx
    · exact (ih.sublist ((List.filter_sublist _).map _))

theorem firstRows_snoc (pre : List Row) (r : Row) :
    firstRows (pre ++ [r]) =
      if (∃ x ∈ pre, x.venta_id = r.venta_id) then firstRows pre else firstRows pre ++ [r] := by
  induction pre with
  | nil => simp [firstRows]
  | cons a pre ih =>
    rw [List.cons_append, firstRows_cons, firstRows_cons, ih]
    by_cases ha : a.venta_id = r.venta_id
    · have h1 : ∃ x ∈ a :: pre, x.venta_id = r.venta_id := ⟨a, List.mem_cons_self _ _, ha⟩
      rw [if_pos h1]
      by_cases hp : ∃ x ∈ pre, x.venta_id = r.venta_id
      · rw [if_pos hp]
      · rw [if_neg hp, List.filter_append]
        simp [ha]
    · by_cases hp : ∃ x ∈ pre, x.venta_id = r.venta_id
      · have h1 : ∃ x ∈ a :: pre, x.venta_id = r.venta_id := by
          obtain ⟨x, hx, hxk⟩ := hp
          exact ⟨x, List.mem_cons_of_mem _ hx, hxk⟩
        rw [if_pos hp, if_pos h1]
      · have h1 : ¬ ∃ x ∈ a :: pre, x.venta_id = r.venta_id := by
          rintro ⟨x, hx, hxk⟩
          rcases List.mem_cons.mp hx with rfl | hx
          · exact ha hxk
          · exact hp ⟨x, hx, hxk⟩
        rw [if_neg hp, if_neg h1, List.filter_append]
        have : r.venta_id ≠ a.venta_id := fun h => ha h.symm
        simp [this]

theorem detallesOf_snoc (pre : List Row) (r : Row) (k : Int) :
    detallesOf (pre ++ [r]) k =
      detallesOf pre k ++ (if r.venta_id = k then [detalleOf r] else []) := by
  unfold detallesOf
  rw [List.filter_append, List.map_append]
  by_cases h : r.venta_id = k <;> simp [h]

theorem detallesOf_eq_nil {rows : List Row} {k : Int} (h : ∀ x ∈ rows, x.venta_id ≠ k) :
    detallesOf rows k = [] := by
  unfold detallesOf
  rw [List.map_eq_nil_iff, List.filter_eq_nil_iff]
  intro x hx
  simpa using h x hx

theorem groupSpec_length (rows : List Row) : (groupSpec rows).length = (firstRows rows).length := by
  simp [groupSpec]

theorem groupSpec_snoc_new (pre : List Row) (r : Row)
    (h : ∀ x ∈ pre, x.venta_id ≠ r.venta_id) :
    groupSpec (pre ++ [r]) = groupSpec pre ++ [{ shell r with detalles := [detalleOf r] }] := by
  have hne : ¬ ∃ x ∈ pre, x.venta_id = r.venta_id := by
    rintro ⟨x, hx, hk⟩
    exact h x hx hk
  unfold groupSpec
  rw [firstRows_snoc, if_neg hne, List.map_append]
  congr 1
  · apply List.map_congr_left
    intro x hx
    have hx2 : x.venta_id ≠ r.venta_id := h x (firstRows_subset hx)
    simp [docOf, detallesOf_snoc, Ne.symm hx2]
  · simp [docOf, detallesOf_snoc, detallesOf_eq_nil h]

theorem groupSpec_snoc_old (pre : List Row) (r x : Row) (i : Nat)
    (hi : (firstRows pre)[i]? = some x) (hx : x.venta_id = r.venta_id) :
    groupSpec (pre ++ [r]) =
      (groupSpec pre).set i
        { docOf pre x with detalles := (docOf pre x).detalles ++ [detalleOf r] } := by
  have hmem : ∃ y ∈ pre, y.venta_id = r.venta_id :=
    ⟨x, firstRows_subset (List.mem_iff_getElem?.mpr ⟨_, hi⟩), hx⟩
  have hnd := firstRows_ids_nodup pre
  unfold groupSpec
  rw [firstRows_snoc, if_pos hmem]
  apply List.ext_getElem?
  intro j
  rw [List.getElem?_set, List.getElem?_map, List.getElem?_map]
  by_cases hij : i = j
  · subst hij
    have hlt : i < (List.map (docOf pre) (firstRows pre)).length := by
      rw [List.length_map]
      exact (List.getElem?_eq_some_iff.mp hi).1
    rw [if_pos rfl, if_pos hlt, hi]
    simp [docOf, detallesOf_snoc, hx]
  · rw [if_neg hij]
    cases hj : (firstRows pre)[j]? with
    | none => rfl
    | some y =>
      have hy : y.venta_id ≠ r.venta_id := by
        intro hy
        apply hij
        have h1 : (List.map Row.venta_id (firstRows pre))[i]? = some r.venta_id := by
          rw [List.getElem?_map, hi, Option.map_some', hx]
        have h2 : (List.map Row.venta_id (firstRows pre))[j]? = some r.venta_id := by
          rw [List.getElem?_map, hj, Option.map_some', hy]
        have hi2 := (List.getElem?_eq_some_iff.mp h1)
        have hj2 := (List.getElem?_eq_some_iff.mp h2)
        obtain ⟨hil, hie⟩ := hi2
        obtain ⟨hjl, hje⟩ := hj2
        exact (List.Nodup.getElem_inj_iff hnd).mp (hie.trans hje.symm)
      simp [docOf, detallesOf_snoc, Ne.symm hy]

theorem forEachStep_inv (pre : List Row) (r : Row) (st : AggState) (h : AggInv pre st) :
    ∃ st2, forEachStep st r = some st2 ∧ AggInv (pre ++ [r]) st2 := by
  obtain ⟨hv, hn, hs⟩ := h
  cases hl : st.ventasMap.lookup r.venta_id with
  | none =>
    have hnew : ∀ x ∈ pre, x.venta_id ≠ r.venta_id := hn _ hl
    have hnot : ¬ ∃ x ∈ pre, x.venta_id = r.venta_id := by
      rintro ⟨x, hx, hk⟩
      exact hnew x hx hk
    refine ⟨⟨groupSpec (pre ++ [r]), (r.venta_id, st.ventas.length) :: st.ventasMap⟩, ?_, ?_⟩
    · simp only [forEachStep, hl, List.lookup_cons_self]
      rw [groupSpec_snoc_new pre r hnew, ← hv]
      simp [shell]
    · refine ⟨rfl, ?_, ?_⟩
      · intro k hk x hx
        rw [List.lookup_cons] at hk
        cases hkb : (k == r.venta_id) with
        | true => rw [hkb] at hk; cases hk
        | false =>
          rw [hkb] at hk
          have hkne : k ≠ r.venta_id := by simpa using hkb
          rcases List.mem_append.mp hx with hx | hx
          · exact hn k hk x hx
          · rw [List.mem_singleton.mp hx]
            exact fun e => hkne e.symm
      · intro k ref hk
        rw [firstRows_snoc, if_neg hnot]
        rw [List.lookup_cons] at hk
        cases hkb : (k == r.venta_id) with
        | true =>
          rw [hkb] at hk
          have hke : k = r.venta_id := by simpa using hkb
          have hlen : st.ventas.length = (firstRows pre).length := by
            rw [hv, groupSpec_length]
          refine ⟨r, ?_, hke.symm⟩
          cases hk
          rw [hlen]
          simp
        | false =>
          rw [hkb] at hk
          obtain ⟨x, hx, hxk⟩ := hs k ref hk
          refine ⟨x, ?_, hxk⟩
          rw [List.getElem?_append_left (List.getElem?_eq_some_iff.mp hx).1]
          exact hx
  | some ref =>
    obtain ⟨x, hx, hxk⟩ := hs _ _ hl
    have hdoc : st.ventas[ref]? = some (docOf pre x) := by
      rw [hv, groupSpec, List.getElem?_map, hx]
      rfl
    refine ⟨⟨groupSpec (pre ++ [r]), st.ventasMap⟩, ?_, ?_⟩
    · simp only [forEachStep, hl, hdoc]
      rw [groupSpec_snoc_old pre r x ref hx hxk, ← hv]
    · have hmem : ∃ y ∈ pre, y.venta_id = r.venta_id :=
        ⟨x, firstRows_subset (List.mem_iff_getElem?.mpr ⟨_, hx⟩), hxk⟩
      refine ⟨rfl, ?_, ?_⟩
      · intro k hk y hy
        rcases List.mem_append.mp hy with hy | hy
        · exact hn k hk y hy
        · rw [List.mem_singleton.mp hy]
          intro e
          rw [← e, hl] at hk
          cases hk
      · intro k ref2 hk
        rw [firstRows_snoc, if_pos hmem]
        exact hs k ref2 hk

theorem foldlM_forEachStep_inv (rows pre : List Row) (st : AggState) (h : AggInv pre st) :
    ∃ st2, rows.foldlM forEachStep st = some st2 ∧ AggInv (pre ++ rows) st2 := by
  induction rows generalizing pre st with
  | nil => exact ⟨st, rfl, by simpa using h⟩
  | cons r rs ih =>
    obtain ⟨st1, h1, hinv1⟩ := forEachStep_inv pre r st h
    obtain ⟨st2, h2, hinv2⟩ := ih (pre ++ [r]) st1 hinv1
    refine ⟨st2, ?_, by simpa using hinv2⟩
    rw [List.foldlM_cons, h1]
    exact h2

theorem aggInv_init : AggInv [] AggState.init := by
  refine ⟨rfl, ?_, ?_⟩
  · intro k _ x hx
    cases hx
  · intro k ref hk
    simp [AggState.init] at hk

/-- The grouping pass never throws and computes the closed form. -/
theorem groupRows_eq (rows : List Row) : groupRows rows = some (groupSpec rows) := by
  obtain ⟨st, h1, hinv⟩ := foldlM_forEachStep_inv rows [] AggState.init aggInv_init
  unfold groupRows
  rw [h1]
  simp only [Option.map_some', List.nil_append] at hinv ⊢
  rw [hinv.1]

theorem facturacionesCallback_ok (rows : List Row) :
    facturacionesCallback none rows = some ⟨200, [Body.json (groupSpec rows)]⟩ := by
  simp [facturacionesCallback, groupRows_eq, Res.fresh, Res.json]

theorem groupSpec_ids (rows : List Row) :
    (groupSpec rows).map VentaDoc.venta_id = (firstRows rows).map Row.venta_id := by
  simp [groupSpec, docOf, shell]

theorem mem_firstRows_ids_map (rows : List Row) (k : Int) :
    k ∈ (firstRows rows).map Row.venta_id ↔ k ∈ rows.map Row.venta_id := by
  simpa [List.mem_map] using mem_firstRows_ids rows k

theorem firstRows_indexOf_pairwise (rows : List Row) :
    List.Pairwise (· < ·)
      ((firstRows rows).map (fun x => (rows.map Row.venta_id).indexOf x.venta_id)) := by
  induction rows with
  | nil => simp [firstRows]
  | cons r rs ih =>
    rw [firstRows_cons, List.map_cons, List.map_cons, List.pairwise_cons]
    have hmap : List.map (fun x => List.indexOf x.venta_id (r.venta_id :: List.map Row.venta_id rs))
          (List.filter (fun x => decide (x.venta_id ≠ r.venta_id)) (firstRows rs)) =
        List.map (fun x => List.indexOf x.venta_id (List.map Row.venta_id rs) + 1)
          (List.filter (fun x => decide (x.venta_id ≠ r.venta_id)) (firstRows rs)) := by
      apply List.map_congr_left
      intro x hx
      have hne : x.venta_id ≠ r.venta_id := by simpa using (List.mem_filter.mp hx).2
      exact List.indexOf_cons_ne _ (Ne.symm hne)
    rw [hmap]
    refine ⟨?_, ?_⟩
    · intro n hn
      obtain ⟨x, _, rfl⟩ := List.mem_map.mp hn
      rw [List.indexOf_cons_self]
      exact Nat.succ_pos _
    · rw [List.pairwise_map]
      have hsub : (List.filter (fun x => decide (x.venta_id ≠ r.venta_id)) (firstRows rs)).Sublist
          (firstRows rs) := List.filter_sublist _
      have ih2 := (List.pairwise_map.mp ih).sublist hsub
      exact ih2.imp (fun h => Nat.succ_lt_succ h)

theorem firstRows_ids_congr (rows rows2 : List Row)
    (h : rows.map Row.venta_id = rows2.map Row.venta_id) :
    (firstRows rows).map Row.venta_id = (firstRows rows2).map Row.venta_id := by
  induction rows generalizing rows2 with
  | nil =>
    cases rows2 with
    | nil => rfl
    | cons a l => simp at h
  | cons r rs ih =>
    cases rows2 with
    | nil => simp at h
    | cons a l =>
      simp only [List.map_cons, List.cons.injEq] at h
      obtain ⟨hra, hrest⟩ := h
      have e1 : ∀ (c : Int) (l1 : List Row),
          (List.filter (fun x => decide (x.venta_id ≠ c)) l1).map Row.venta_id =
            List.filter (fun k => decide (k ≠ c)) (l1.map Row.venta_id) := by
        intro c l1
        rw [List.filter_map]
        rfl
      rw [firstRows_cons, firstRows_cons, List.map_cons, List.map_cons, e1, e1, ih l hrest, hra]

/-! ## Sales aggregation: claims -/

/-- C1. In the success path of GET /facturaciones the output array has exactly one document
for each `venta_id` that occurs in the rows and none for any other id, and the documents are
ordered by the position of the first row that carries their `venta_id`. -/
theorem facturaciones_one_document_per_venta_id (rows : List Row) :
    ∃ out : List VentaDoc,
      facturacionesCallback none rows = some ⟨200, [Body.json out]⟩ ∧
      (∀ k : Int, (out.map VentaDoc.venta_id).count k =
        if k ∈ rows.map Row.venta_id then 1 else 0) ∧
      List.Pairwise (· < ·)
        (out.map (fun d => (rows.map Row.venta_id).indexOf d.venta_id)) := by
  refine ⟨groupSpec rows, facturacionesCallback_ok rows, ?_, ?_⟩
  · intro k
    rw [groupSpec_ids, List.count_eq_of_nodup (firstRows_ids_nodup rows)]
    simp only [mem_firstRows_ids_map]
  · have h := firstRows_indexOf_pairwise rows
    simpa [groupSpec, docOf, shell, List.pairwise_map] using h

/-- C2. For every document `d` of the output, `d.detalles` is the list of the input rows
whose `venta_id` is `d.venta_id`, in input order, each mapped to its line-item entry
(`cod_pro`, `cantidad`, `precio`, `producto_descripcion`, `marca`, `color`); no row of
another sale contributes, whatever the interleaving of the rows. -/
theorem facturaciones_detalles_are_rows_of_sale (rows : List Row) :
    ∃ out : List VentaDoc,
      facturacionesCallback none rows = some ⟨200, [Body.json out]⟩ ∧
      ∀ d ∈ out, d.detalles =
        (rows.filter (fun r => decide (r.venta_id = d.venta_id))).map
          (fun r => ({ cod_pro := r.cod_pro, cantidad := r.cantidad, precio := r.precio,
                       producto_descripcion := r.producto_descripcion, marca := r.marca,
                       color := r.color } : DetalleDoc)) := by
  refine ⟨groupSpec rows, facturacionesCallback_ok rows, ?_⟩
  intro d hd
  obtain ⟨x, _, rfl⟩ := List.mem_map.mp hd
  rfl

/-- C3. Every document of the output has a non-empty `detalles` list, and an empty row list
gives an empty output array. -/
theorem facturaciones_detalles_nonempty (rows : List Row) :
    (∃ out : List VentaDoc,
      facturacionesCallback none rows = some ⟨200, [Body.json out]⟩ ∧
      ∀ d ∈ out, d.detalles ≠ []) ∧
    facturacionesCallback none [] = some ⟨200, [Body.json []]⟩ := by
  refine ⟨⟨groupSpec rows, facturacionesCallback_ok rows, ?_⟩, facturacionesCallback_ok []⟩
  intro d hd
  obtain ⟨x, hx, rfl⟩ := List.mem_map.mp hd
  have hmem : x ∈ rows.filter (fun r => decide (r.venta_id = x.venta_id)) := by
    rw [List.mem_filter]
    exact ⟨firstRows_subset hx, by simp⟩
  intro hnil
  have hnil2 : (rows.filter (fun r => decide (r.venta_id = x.venta_id))).map detalleOf = [] := hnil
  rw [List.map_eq_nil_iff] at hnil2
  rw [hnil2] at hmem
  cases hmem

/-- C4. When the rows are sorted by `fecha` in non-increasing order and all rows of one sale
carry the same `fecha`, the output documents are in non-increasing `fecha` order, a document
with a later date stands before one with an earlier date, and the date of a document is the
date of every row of its sale. The handler does not sort: the order of the documents is
fixed by the sequence of `venta_id` values alone, so it is the same for any other row list
with that sequence, whatever its dates. -/
theorem facturaciones_fecha_order (rows : List Row)
    (hsorted : rows.Pairwise (fun a b => b.fecha ≤ a.fecha))
    (hsame : ∀ a ∈ rows, ∀ b ∈ rows, a.venta_id = b.venta_id → a.fecha = b.fecha) :
    ∃ out : List VentaDoc,
      facturacionesCallback none rows = some ⟨200, [Body.json out]⟩ ∧
      out.Pairwise (fun d e => e.fecha ≤ d.fecha) ∧
      (∀ (i j : Nat) (hi : i < out.length) (hj : j < out.length),
        out[j].fecha < out[i].fecha → i < j) ∧
      (∀ d ∈ out, ∀ r ∈ rows, r.venta_id = d.venta_id → r.fecha = d.fecha) ∧
      (∀ rows2 : List Row, rows2.map Row.venta_id = rows.map Row.venta_id →
        ∃ out2 : List VentaDoc,
          facturacionesCallback none rows2 = some ⟨200, [Body.json out2]⟩ ∧
          out2.map VentaDoc.venta_id = out.map VentaDoc.venta_id) := by
  have hpw : (groupSpec rows).Pairwise (fun d e => e.fecha ≤ d.fecha) := by
    unfold groupSpec
    rw [List.pairwise_map]
    exact hsorted.sublist (firstRows_sublist rows)
  refine ⟨groupSpec rows, facturacionesCallback_ok rows, hpw, ?_, ?_, ?_⟩
  · intro i j hi hj hlt
    by_contra hij
    rcases Nat.lt_or_eq_of_le (Nat.le_of_not_lt hij) with h | h
    · have := List.pairwise_iff_getElem.mp hpw j i hj hi h
      omega
    · subst h
      omega
  · intro d hd r hr hk
    obtain ⟨x, hx, rfl⟩ := List.mem_map.mp hd
    exact hsame r hr x (firstRows_subset hx) hk
  · intro rows2 h2
    refine ⟨groupSpec rows2, facturacionesCallback_ok rows2, ?_⟩
    rw [groupSpec_ids, groupSpec_ids]
    exact firstRows_ids_congr rows2 rows h2

/-- Witness of C4 on `exampleRows`: sale 7 of day 25 in two rows, then sale 4 of day 20. -/
theorem facturaciones_fecha_order_witness :
    exampleRows.Pairwise (fun a b => b.fecha ≤ a.fecha) ∧
    (∀ a ∈ exampleRows, ∀ b ∈ exampleRows, a.venta_id = b.venta_id → a.fecha = b.fecha) ∧
    ∃ out : List VentaDoc,
      facturacionesCallback none exampleRows = some ⟨200, [Body.json out]⟩ ∧
      out.Pairwise (fun d e => e.fecha ≤ d.fecha) ∧
      out.map VentaDoc.venta_id = [7, 4] := by
  have h1 : exampleRows.Pairwise (fun a b => b.fecha ≤ a.fecha) := by
    simp [exampleRows]
  have h2 : ∀ a ∈ exampleRows, ∀ b ∈ exampleRows,
      a.venta_id = b.venta_id → a.fecha = b.fecha := by
    simp [exampleRows]
  obtain ⟨out, hout, hpw, _, _, _⟩ := facturaciones_fecha_order exampleRows h1 h2
  refine ⟨h1, h2, out, hout, hpw, ?_⟩
  rw [facturacionesCallback_ok] at hout
  have hout2 : groupSpec exampleRows = out := by
    simpa using hout
  rw [← hout2]
  simp [groupSpec, firstRows, exampleRows, docOf, shell]

/-- C6. For every store error the callback sends status 500 with the fixed text
`Error al obtener las ventas.` and nothing else: no array of documents is sent, and the
response is the same whatever `results` holds, since the grouping pass does not run. -/
theorem facturaciones_error_atomic (e : StoreError) (results : List Row) :
    facturacionesCallback (some e) results =
        some ⟨500, [Body.text "Error al obtener las ventas."]⟩ ∧
    (∀ res, facturacionesCallback (some e) results = some res →
      res.statusCode = 500 ∧ res.sent.length = 1 ∧
      ∀ out : List VentaDoc, Body.json out ∉ res.sent) := by
  refine ⟨rfl, ?_⟩
  intro res hres
  have h : res = ⟨500, [Body.text "Error al obtener las ventas."]⟩ := by
    have h0 : facturacionesCallback (some e) results =
        some ⟨500, [Body.text "Error al obtener las ventas."]⟩ := rfl
    rw [h0] at hres
    exact (Option.some.inj hres).symm
  subst h
  refine ⟨rfl, rfl, ?_⟩
  intro out hmem
  simp at hmem

/-! ## The aggregation over the join -/

theorem filter_orderedInsert_of_neg {α : Type} (r : α → α → Prop) [DecidableRel r]
    (p : α → Bool) (a : α) (s : List α) (h : p a = false) :
    (List.orderedInsert r a s).filter p = s.filter p := by
  induction s with
  | nil => simp [List.orderedInsert, h]
  | cons b s ih =>
    simp only [List.orderedInsert]
    split_ifs with hab
    · simp [List.filter_cons, h]
    · simp only [List.filter_cons, ih]

theorem filter_orderedInsert_of_pos {α : Type} (r : α → α → Prop) [DecidableRel r]
    (p : α → Bool) (a : α) (s : List α) (h : p a = true)
    (hle : ∀ b ∈ s, p b = true → r a b) :
    (List.orderedInsert r a s).filter p = a :: s.filter p := by
  induction s with
  | nil => simp [List.orderedInsert, h]
  | cons b s ih =>
    simp only [List.orderedInsert]
    split_ifs with hab
    · rw [List.filter_cons_of_pos h]
    · have hb : p b = false := by
        cases hpb : p b with
        | false => rfl
        | true => exact absurd (hle b (List.mem_cons_self _ _) hpb) hab
      have ih2 := ih (fun c hc hpc => hle c (List.mem_cons_of_mem _ hc) hpc)
      simp only [List.filter_cons, hb, ih2]
      simp

/-- Insertion sort is stable: the elements selected by `p` keep their order when any two of
them are already in the order `r`. -/
theorem filter_insertionSort_of_ordered {α : Type} (r : α → α → Prop) [DecidableRel r]
    (p : α → Bool) (l : List α)
    (h : ∀ a ∈ l, ∀ b ∈ l, p a = true → p b = true → r a b) :
    (List.insertionSort r l).filter p = l.filter p := by
  induction l with
  | nil => rfl
  | cons a l ih =>
    have ih2 := ih (fun x hx y hy => h x (List.mem_cons_of_mem _ hx) y (List.mem_cons_of_mem _ hy))
    simp only [List.insertionSort]
    cases hpa : p a with
    | false =>
      rw [filter_orderedInsert_of_neg r p a _ hpa, ih2]
      simp [List.filter_cons, hpa]
    | true =>
      rw [filter_orderedInsert_of_pos r p a _ hpa, ih2]
      · simp [List.filter_cons, hpa]
      · intro b hb hpb
        exact h a (List.mem_cons_self _ _) b
          (List.mem_cons_of_mem _ ((List.mem_insertionSort r).mp hb)) hpa hpb

/-- In a list without two elements of the same key, selecting by the key of a member gives
that member alone. -/
theorem filter_key_eq_singleton {α κ : Type} [DecidableEq κ] (key : α → κ) (l : List α)
    (a : α) (k : κ) (ha : a ∈ l) (hk : key a = k) (hnd : (l.map key).Nodup) :
    l.filter (fun x => decide (k = key x)) = [a] := by
  induction l with
  | nil => cases ha
  | cons b l ih =>
    rw [List.map_cons, List.nodup_cons] at hnd
    obtain ⟨hb, hnd2⟩ := hnd
    rcases List.mem_cons.mp ha with rfl | hal
    · have hrest : l.filter (fun x => decide (k = key x)) = [] := by
        rw [List.filter_eq_nil_iff]
        intro x hx hkx
        apply hb
        rw [hk, of_decide_eq_true hkx]
        exact List.mem_map_of_mem key hx
      rw [List.filter_cons_of_pos (by simp [hk]), hrest]
    · have hbk : ¬ (k = key b) := by
        intro e
        apply hb
        rw [← e, ← hk]
        exact List.mem_map_of_mem key hal
      rw [List.filter_cons_of_neg (by simpa using hbk)]
      exact ih hal hnd2

theorem mem_joinVenta {db : Db} {v : VentaRec} {x : Row} :
    x ∈ joinVenta db v ↔
      ∃ c ∈ db.clientes, v.cliente = c.id ∧ ∃ d ∈ db.detalle, v.id = d.id_venta ∧
        ∃ p ∈ db.productos, d.cod_pro = p.codigo ∧ x = selectRow v c d p := by
  unfold joinVenta
  simp only [List.mem_flatMap, List.mem_filter, List.mem_map, decide_eq_true_eq]
  constructor
  · rintro ⟨c, ⟨hc, hvc⟩, d, ⟨hd, hvd⟩, p, ⟨hp, hdp⟩, rfl⟩
    exact ⟨c, hc, hvc, d, hd, hvd, p, hp, hdp, rfl⟩
  · rintro ⟨c, hc, hvc, d, hd, hvd, p, hp, hdp, rfl⟩
    exact ⟨c, ⟨hc, hvc⟩, d, ⟨hd, hvd⟩, p, ⟨hp, hdp⟩, rfl⟩

theorem joinVenta_venta_id {db : Db} {v : VentaRec} {x : Row} (h : x ∈ joinVenta db v) :
    x.venta_id = v.id ∧ x.fecha = v.fecha := by
  obtain ⟨c, _, _, d, _, _, p, _, _, rfl⟩ := mem_joinVenta.mp h
  exact ⟨rfl, rfl⟩

theorem filter_flatMap_venta_id (f : VentaRec → List Row)
    (hf : ∀ v, ∀ x ∈ f v, x.venta_id = v.id) (l : List VentaRec) (k : Int) :
    (l.flatMap f).filter (fun x => decide (x.venta_id = k)) =
      (l.filter (fun v => decide (k = v.id))).flatMap f := by
  induction l with
  | nil => rfl
  | cons v l ih =>
    rw [List.flatMap_cons, List.filter_append, ih]
    by_cases hv : k = v.id
    · have hall : (f v).filter (fun x => decide (x.venta_id = k)) = f v := by
        rw [List.filter_eq_self]
        intro x hx
        simp [hf v x hx, hv]
      rw [hall, List.filter_cons_of_pos (by simpa using hv), List.flatMap_cons]
    · have hnone : (f v).filter (fun x => decide (x.venta_id = k)) = [] := by
        rw [List.filter_eq_nil_iff]
        intro x hx hxk
        apply hv
        rw [← hf v x hx]
        exact (of_decide_eq_true hxk).symm
      rw [hnone, List.filter_cons_of_neg (by simpa using hv), List.nil_append]

/-- Rows of the join that belong to the sale `v`, when sale ids are unique. -/
theorem joinRows_filter_venta (db : Db) (v : VentaRec) (hv : v ∈ db.ventas)
    (hventas : (db.ventas.map VentaRec.id).Nodup) :
    (joinRows db).filter (fun x => decide (x.venta_id = v.id)) = joinVenta db v := by
  unfold joinRows
  rw [filter_flatMap_venta_id (joinVenta db) (fun w x hx => (joinVenta_venta_id hx).1),
    filter_key_eq_singleton VentaRec.id db.ventas v v.id hv rfl hventas]
  simp

/-- Rows of the query result that belong to the sale `v`: the sort keeps them as the join
gave them, since they all carry the date of `v`. -/
theorem queryVentas_filter_venta (db : Db) (v : VentaRec) (hv : v ∈ db.ventas)
    (hventas : (db.ventas.map VentaRec.id).Nodup) :
    (queryVentas db).filter (fun x => decide (x.venta_id = v.id)) = joinVenta db v := by
  unfold queryVentas
  rw [filter_insertionSort_of_ordered, joinRows_filter_venta db v hv hventas]
  intro a ha b hb hpa hpb
  have ha2 : a ∈ (joinRows db).filter (fun x => decide (x.venta_id = v.id)) :=
    List.mem_filter.mpr ⟨ha, hpa⟩
  have hb2 : b ∈ (joinRows db).filter (fun x => decide (x.venta_id = v.id)) :=
    List.mem_filter.mpr ⟨hb, hpb⟩
  rw [joinRows_filter_venta db v hv hventas] at ha2 hb2
  show b.fecha ≤ a.fecha
  rw [(joinVenta_venta_id ha2).2, (joinVenta_venta_id hb2).2]

theorem joinVenta_eq (db : Db) (v : VentaRec) (c : ClienteRec) (hc : c ∈ db.clientes)
    (hvc : c.id = v.cliente) (hclientes : (db.clientes.map ClienteRec.id).Nodup) :
    joinVenta db v =
      (db.detalle.filter (fun d => decide (v.id = d.id_venta))).flatMap fun d =>
        (db.productos.filter (fun p => decide (d.cod_pro = p.codigo))).map fun p =>
          selectRow v c d p := by
  unfold joinVenta
  rw [filter_key_eq_singleton ClienteRec.id db.clientes c v.cliente hc hvc hclientes]
  simp

theorem forall₂_entryOf (db : Db) (v : VentaRec) (c : ClienteRec)
    (hcodigos : (db.productos.map ProductoRec.codigo).Nodup)
    (items : List DetalleRec)
    (hitems : ∀ d ∈ items, ∃ p ∈ db.productos, p.codigo = d.cod_pro) :
    List.Forall₂ (EntryOf db)
      ((items.flatMap fun d =>
        (db.productos.filter (fun p => decide (d.cod_pro = p.codigo))).map fun p =>
          selectRow v c d p).map detalleOf) items := by
  induction items with
  | nil => exact List.Forall₂.nil
  | cons d items ih =>
    obtain ⟨p, hp, hpd⟩ := hitems d (List.mem_cons_self _ _)
    have ih2 := ih (fun e he => hitems e (List.mem_cons_of_mem _ he))
    rw [List.flatMap_cons,
      filter_key_eq_singleton ProductoRec.codigo db.productos p d.cod_pro hp hpd hcodigos]
    simp only [List.map_cons, List.map_nil, List.singleton_append]
    exact List.Forall₂.cons ⟨rfl, rfl, rfl, p, hp, hpd, rfl, rfl, rfl⟩ ih2

theorem mem_queryVentas {db : Db} {x : Row} : x ∈ queryVentas db ↔ x ∈ joinRows db := by
  unfold queryVentas
  exact List.mem_insertionSort _

theorem mem_joinRows {db : Db} {x : Row} :
    x ∈ joinRows db ↔ ∃ v ∈ db.ventas, x ∈ joinVenta db v := by
  unfold joinRows
  exact List.mem_flatMap

/-- C5. With the source query modelled as the inner join of the four tables followed by a
stable sort on `fecha`, in every store state whose sale ids, client ids and product codes
are unique and in which every sale has its client and every line item its product: the
response has exactly one document for each sale with at least one line item and none for a
sale without line items; every document is that of a stored sale, and its `detalles` has
one entry for each line item of the sale, in the order of the line items in the join, each
carrying `descripcion`, `marca` and `color` of the product with the code of the item. -/
theorem facturaciones_over_join (db : Db)
    (hventas : (db.ventas.map VentaRec.id).Nodup)
    (hclientes : (db.clientes.map ClienteRec.id).Nodup)
    (hcodigos : (db.productos.map ProductoRec.codigo).Nodup)
    (hcliente : ∀ v ∈ db.ventas, ∃ c ∈ db.clientes, c.id = v.cliente)
    (hproducto : ∀ d ∈ db.detalle, ∃ p ∈ db.productos, p.codigo = d.cod_pro) :
    ∃ out : List VentaDoc,
      facturacionesCallback none (queryVentas db) = some ⟨200, [Body.json out]⟩ ∧
      (∀ v ∈ db.ventas, (∃ d ∈ db.detalle, d.id_venta = v.id) →
        (out.map VentaDoc.venta_id).count v.id = 1) ∧
      (∀ v ∈ db.ventas, (∀ d ∈ db.detalle, d.id_venta ≠ v.id) →
        ∀ doc ∈ out, doc.venta_id ≠ v.id) ∧
      (∀ doc ∈ out, (∃ v ∈ db.ventas, v.id = doc.venta_id) ∧
        List.Forall₂ (EntryOf db) doc.detalles
          (db.detalle.filter (fun li => decide (li.id_venta = doc.venta_id)))) := by
  refine ⟨groupSpec (queryVentas db), facturacionesCallback_ok _, ?_, ?_, ?_⟩
  · rintro v hv ⟨d, hd, hdv⟩
    obtain ⟨c, hc, hcv⟩ := hcliente v hv
    obtain ⟨p, hp, hpd⟩ := hproducto d hd
    have hrow : selectRow v c d p ∈ queryVentas db :=
      mem_queryVentas.mpr (mem_joinRows.mpr ⟨v, hv,
        mem_joinVenta.mpr ⟨c, hc, hcv.symm, d, hd, hdv.symm, p, hp, hpd.symm, rfl⟩⟩)
    have hmem : v.id ∈ (queryVentas db).map Row.venta_id :=
      List.mem_map.mpr ⟨_, hrow, rfl⟩
    rw [groupSpec_ids, List.count_eq_of_nodup (firstRows_ids_nodup _),
      if_pos ((mem_firstRows_ids_map _ _).mpr hmem)]
  · intro v _ hnone doc hdoc hid
    obtain ⟨x, hx, rfl⟩ := List.mem_map.mp hdoc
    obtain ⟨w, _, hxw⟩ := mem_joinRows.mp (mem_queryVentas.mp (firstRows_subset hx))
    obtain ⟨c, _, _, d, hd, hwd, p, _, _, rfl⟩ := mem_joinVenta.mp hxw
    exact hnone d hd (hwd.symm.trans hid)
  · intro doc hdoc
    obtain ⟨x, hx, rfl⟩ := List.mem_map.mp hdoc
    obtain ⟨v, hv, hxv⟩ := mem_joinRows.mp (mem_queryVentas.mp (firstRows_subset hx))
    have hid : x.venta_id = v.id := (joinVenta_venta_id hxv).1
    obtain ⟨c, hc, hcv⟩ := hcliente v hv
    refine ⟨⟨v, hv, hid.symm⟩, ?_⟩
    have hdet : (docOf (queryVentas db) x).detalles =
        ((db.detalle.filter (fun d => decide (v.id = d.id_venta))).flatMap fun d =>
          (db.productos.filter (fun p => decide (d.cod_pro = p.codigo))).map fun p =>
            selectRow v c d p).map detalleOf := by
      show detallesOf (queryVentas db) x.venta_id = _
      unfold detallesOf
      rw [hid, queryVentas_filter_venta db v hv hventas, joinVenta_eq db v c hc hcv hclientes]
    have hfilter : db.detalle.filter
          (fun li => decide (li.id_venta = (docOf (queryVentas db) x).venta_id)) =
        db.detalle.filter (fun d => decide (v.id = d.id_venta)) := by
      apply List.filter_congr
      intro d _
      show decide (d.id_venta = x.venta_id) = decide (v.id = d.id_venta)
      rw [hid]
      exact decide_eq_decide.mpr ⟨Eq.symm, Eq.symm⟩
    rw [hdet, hfilter]
    apply forall₂_entryOf db v c hcodigos
    intro d hd
    exact hproducto d (List.mem_filter.mp hd).1

/-- Witness of C5 on `exampleDb`: sale 1 has two line items, sale 2 has none. -/
theorem facturaciones_over_join_witness :
    (exampleDb.ventas.map VentaRec.id).Nodup ∧
    (exampleDb.clientes.map ClienteRec.id).Nodup ∧
    (exampleDb.productos.map ProductoRec.codigo).Nodup ∧
    (∀ v ∈ exampleDb.ventas, ∃ c ∈ exampleDb.clientes, c.id = v.cliente) ∧
    (∀ d ∈ exampleDb.detalle, ∃ p ∈ exampleDb.productos, p.codigo = d.cod_pro) ∧
    ∃ out : List VentaDoc,
      facturacionesCallback none (queryVentas exampleDb) = some ⟨200, [Body.json out]⟩ ∧
      (out.map VentaDoc.venta_id).count 1 = 1 ∧
      (∀ doc ∈ out, doc.venta_id ≠ 2) ∧
      (∀ doc ∈ out, List.Forall₂ (EntryOf exampleDb) doc.detalles
        (exampleDb.detalle.filter (fun li => decide (li.id_venta = doc.venta_id)))) := by
  have h1 : (exampleDb.ventas.map VentaRec.id).Nodup := by decide
  have h2 : (exampleDb.clientes.map ClienteRec.id).Nodup := by decide
  have h3 : (exampleDb.productos.map ProductoRec.codigo).Nodup := by decide
  have h4 : ∀ v ∈ exampleDb.ventas, ∃ c ∈ exampleDb.clientes, c.id = v.cliente := by decide
  have h5 : ∀ d ∈ exampleDb.detalle, ∃ p ∈ exampleDb.productos, p.codigo = d.cod_pro := by
    decide
  obtain ⟨out, hout, hone, hnone, hdocs⟩ := facturaciones_over_join exampleDb h1 h2 h3 h4 h5
  refine ⟨h1, h2, h3, h4, h5, out, hout, ?_, ?_, ?_⟩
  · exact hone ⟨1, 10, 3, 500, 20⟩ (by simp [exampleDb])
      ⟨⟨1, "P001", 2, 100, 1⟩, by simp [exampleDb], rfl⟩
  · exact hnone ⟨2, 10, 3, 80, 25⟩ (by simp [exampleDb]) (by simp [exampleDb])
  · intro doc hdoc
    exact (hdocs doc hdoc).2

/-! ## Uniform CRUD handlers: claims -/

theorem lookup_spread (target src : JSObj) (k : String) :
    (spread target src).lookup k = (src.lookup k).or (target.lookup k) := by
  unfold spread
  exact List.lookup_append

/-- On a body without an own `id` property the `id` of the created response is the
`insertId` of the store. -/
theorem createCallback_id_of_body_without_id (R : Resource) (req : Request)
    (results : OkPacket) (h : req.body.lookup "id" = none) :
    ∃ obj : JSObj, createCallback R req none results = ⟨201, [Body.json obj]⟩ ∧
      obj.lookup "id" = some (JVal.num results.insertId) := by
  refine ⟨spread [("id", JVal.num results.insertId)] req.body, rfl, ?_⟩
  rw [lookup_spread, h]
  simp [List.lookup]

/-- C7 (defect). POST /productos with the body of the Swagger example, which carries
`id: 1`, and a successful store result with `insertId` 7: the response has status 201 and
its `id` field is 1, the value of the body, not the identity 7 assigned by the store. -/
theorem createCallback_id_taken_from_body :
    ∃ obj : JSObj,
      createCallback Resource.productos ⟨exampleProductoBody, 0⟩ none ⟨7, 1, 0⟩ =
        ⟨201, [Body.json obj]⟩ ∧
      obj.lookup "id" = some (JVal.num 1) ∧
      obj.lookup "id" ≠ some (JVal.num 7) := by
  refine ⟨spread [("id", JVal.num 7)] exampleProductoBody, rfl, ?_, ?_⟩
  · simp [spread, exampleProductoBody, List.lookup]
  · simp [spread, exampleProductoBody, List.lookup]

/-- C8. For every request body and every successful store result the response is 201 with
an object in which every field of the submitted body has exactly its submitted value, and
which has no field other than `id` and the fields of the body. -/
theorem createCallback_echoes_body (R : Resource) (req : Request) (results : OkPacket) :
    ∃ obj : JSObj,
      createCallback R req none results = ⟨201, [Body.json obj]⟩ ∧
      (∀ (k : String) (v : JVal), req.body.lookup k = some v → obj.lookup k = some v) ∧
      (∀ (k : String) (v : JVal), obj.lookup k = some v →
        k = "id" ∨ req.body.lookup k = some v) := by
  refine ⟨spread [("id", JVal.num results.insertId)] req.body, rfl, ?_, ?_⟩
  · intro k v h
    rw [lookup_spread, h]
    rfl
  · intro k v h
    rw [lookup_spread] at h
    cases hb : req.body.lookup k with
    | some w =>
      rw [hb] at h
      exact Or.inr h
    | none =>
      rw [hb] at h
      left
      by_contra hk
      have hbeq : (k == "id") = false := by simpa using hk
      simp [List.lookup, hbeq] at h

/-- C9. The response of read-by-id is decided by the callback arguments alone (it is the
same for any two requests), and exactly one of three outcomes occurs: a store error gives
500 with the fixed text; no error and a non-empty row list gives 200 with the first row as
body; no error and an empty row list gives 404. Hence 404 is sent only without a store
error and 500 only with one. -/
theorem readById_three_outcomes (R : Resource) (req req2 : Request)
    (err : Option StoreError) (results : List JSObj) :
    readByIdCallback R req err results = readByIdCallback R req2 err results ∧
    (∀ e : StoreError, err = some e →
      readByIdCallback R req err results = ⟨500, [Body.text R.readErrorText]⟩) ∧
    (∀ (row : JSObj) (rest : List JSObj), err = none → results = row :: rest →
      readByIdCallback R req err results = ⟨200, [Body.json row]⟩) ∧
    (err = none → results = [] →
      readByIdCallback R req err results = ⟨404, [Body.text R.notFoundText]⟩) ∧
    ((readByIdCallback R req err results).statusCode = 500 ↔ err.isSome = true) ∧
    ((readByIdCallback R req err results).statusCode = 200 ↔ (err = none ∧ results ≠ [])) ∧
    ((readByIdCallback R req err results).statusCode = 404 ↔ (err = none ∧ results = [])) := by
  refine ⟨rfl, ?_, ?_, ?_, ?_, ?_, ?_⟩
  · rintro e rfl
    rfl
  · rintro row rest rfl rfl
    rfl
  · rintro rfl rfl
    rfl
  · cases err with
    | some e => simp [readByIdCallback, Res.status, Res.send, Res.fresh]
    | none =>
      cases results with
      | nil => simp [readByIdCallback, Res.status, Res.send, Res.fresh]
      | cons row rest => simp [readByIdCallback, Res.status, Res.json, Res.fresh]
  · cases err with
    | some e => simp [readByIdCallback, Res.status, Res.send, Res.fresh]
    | none =>
      cases results with
      | nil => simp [readByIdCallback, Res.status, Res.send, Res.fresh]
      | cons row rest => simp [readByIdCallback, Res.status, Res.json, Res.fresh]
  · cases err with
    | some e => simp [readByIdCallback, Res.status, Res.send, Res.fresh]
    | none =>
      cases results with
      | nil => simp [readByIdCallback, Res.status, Res.send, Res.fresh]
      | cons row rest => simp [readByIdCallback, Res.status, Res.json, Res.fresh]

theorem selectById_eq_nil (t : Table) (id : Int) (h : ∀ r ∈ t, r.id ≠ id) :
    t.selectById id = [] := by
  unfold Table.selectById
  rw [List.map_eq_nil_iff, List.filter_eq_nil_iff]
  intro r hr
  simpa using h r hr

/-- C10, counterexample. PUT /productos/5 and DELETE /productos/5 on a healthy store whose
table is empty, so that no row has the requested id: the responses have status 200, not
the not-found status 404. -/
theorem byId_put_delete_missing_id_not_404 :
    (∀ r ∈ ([] : Table), r.id ≠ 5) ∧
    (putById Resource.productos [] ⟨exampleProductoBody, 5⟩).2.statusCode = 200 ∧
    (putById Resource.productos [] ⟨exampleProductoBody, 5⟩).2.statusCode ≠ 404 ∧
    (deleteById Resource.productos [] ⟨[], 5⟩).2.statusCode = 200 ∧
    (deleteById Resource.productos [] ⟨[], 5⟩).2.statusCode ≠ 404 := by
  refine ⟨?_, rfl, ?_, rfl, ?_⟩
  · intro r hr
    cases hr
  · simp [putById, updateCallback, Res.status, Res.send, Res.fresh]
  · simp [deleteById, deleteCallback, Res.status, Res.send, Res.fresh]

/-- C10, amended. On a healthy store in which no row has the requested id, GET /R/:id
answers 404 with the not-found text of the resource, while PUT /R/:id and DELETE /R/:id
answer 200 with their acknowledgement text, affect no row and leave the table as it was;
none of the three answers 500. -/
theorem byId_missing_id_responses (R : Resource) (t : Table) (req : Request)
    (hmissing : ∀ r ∈ t, r.id ≠ req.id) :
    getById R t req = ⟨404, [Body.text R.notFoundText]⟩ ∧
    putById R t req = (t, ⟨200, [Body.text R.updatedText]⟩) ∧
    deleteById R t req = (t, ⟨200, [Body.text R.deletedText]⟩) ∧
    (t.updateById req.id (R.assignments req.body)).2.affectedRows = 0 ∧
    (t.deleteById req.id).2.affectedRows = 0 ∧
    (getById R t req).statusCode ≠ 500 ∧
    (putById R t req).2.statusCode ≠ 500 ∧
    (deleteById R t req).2.statusCode ≠ 500 := by
  have hsel : t.selectById req.id = [] := selectById_eq_nil t req.id hmissing
  have hfilter : t.filter (fun r => decide (r.id = req.id)) = [] := by
    rw [List.filter_eq_nil_iff]
    intro r hr
    simpa using hmissing r hr
  have hkeep : t.filter (fun r => decide (r.id ≠ req.id)) = t := by
    rw [List.filter_eq_self]
    intro r hr
    simpa using hmissing r hr
  have hmap : t.map (fun r => if r.id = req.id then
      ({ r with cols := spread r.cols (R.assignments req.body) } : Record) else r) = t := by
    conv_rhs => rw [← List.map_id t]
    apply List.map_congr_left
    intro r hr
    rw [if_neg (hmissing r hr)]
    rfl
  have hget : getById R t req = ⟨404, [Body.text R.notFoundText]⟩ := by
    unfold getById
    rw [hsel]
    rfl
  have hput : putById R t req = (t, ⟨200, [Body.text R.updatedText]⟩) := by
    unfold putById Table.updateById
    rw [hmap]
    rfl
  have hdel : deleteById R t req = (t, ⟨200, [Body.text R.deletedText]⟩) := by
    unfold deleteById Table.deleteById
    rw [hkeep]
    rfl
  refine ⟨hget, hput, hdel, ?_, ?_, ?_, ?_, ?_⟩
  · simp [Table.updateById, hfilter]
  · simp [Table.deleteById, hfilter]
  · rw [hget]
    exact (by decide : (404 : Nat) ≠ 500)
  · rw [hput]
    exact (by decide : (200 : Nat) ≠ 500)
  · rw [hdel]
    exact (by decide : (200 : Nat) ≠ 500)

/-- Witness of C10 as amended: a table holding the row of id 1, requests for id 5. -/
theorem byId_missing_id_responses_witness :
    (∀ r ∈ ([⟨1, []⟩] : Table), r.id ≠ (⟨[], 5⟩ : Request).id) ∧
    getById Resource.ventas [⟨1, []⟩] ⟨[], 5⟩ = ⟨404, [Body.text "Venta no encontrada"]⟩ ∧
    (putById Resource.ventas [⟨1, []⟩] ⟨[], 5⟩).2 =
      ⟨200, [Body.text "Venta actualizada exitosamente"]⟩ ∧
    (deleteById Resource.ventas [⟨1, []⟩] ⟨[], 5⟩).2 =
      ⟨200, [Body.text "Venta eliminada exitosamente"]⟩ := by
  have hm : ∀ r ∈ ([⟨1, []⟩] : Table), r.id ≠ (⟨[], 5⟩ : Request).id := by
    intro r hr
    rw [List.mem_singleton.mp hr]
    decide
  have h := byId_missing_id_responses Resource.ventas [⟨1, []⟩] ⟨[], 5⟩ hm
  refine ⟨hm, h.1, ?_, ?_⟩
  · rw [h.2.1]
    rfl
  · rw [h.2.2.1]
    rfl

/-! ## The model store: lemmas -/

theorem maxFrom_ge (t : Table) (m : Int) :
    m ≤ Table.maxFrom m t ∧ ∀ r ∈ t, r.id ≤ Table.maxFrom m t := by
  induction t generalizing m with
  | nil => exact ⟨le_refl m, fun r hr => by cases hr⟩
  | cons a t ih =>
    have h := ih (max m a.id)
    have hfold : Table.maxFrom m (a :: t) = Table.maxFrom (max m a.id) t := rfl
    rw [hfold]
    refine ⟨le_trans (le_max_left m a.id) h.1, ?_⟩
    intro r hr
    rcases List.mem_cons.mp hr with rfl | hr
    · exact le_trans (le_max_right m r.id) h.1
    · exact h.2 r hr

theorem maxFrom_eq_or_mem (t : Table) (m : Int) :
    Table.maxFrom m t = m ∨ ∃ r ∈ t, r.id = Table.maxFrom m t := by
  induction t generalizing m with
  | nil => exact Or.inl rfl
  | cons a t ih =>
    have hfold : Table.maxFrom m (a :: t) = Table.maxFrom (max m a.id) t := rfl
    rw [hfold]
    rcases ih (max m a.id) with h | ⟨r, hr, hrid⟩
    · rw [h]
      rcases max_choice m a.id with hm | ha
      · exact Or.inl hm
      · exact Or.inr ⟨a, List.mem_cons_self _ _, ha.symm⟩
    · exact Or.inr ⟨r, List.mem_cons_of_mem _ hr, hrid⟩

theorem maxFrom_concat (t : Table) (m : Int) (x : Record) :
    Table.maxFrom m (t ++ [x]) = max (Table.maxFrom m t) x.id := by
  unfold Table.maxFrom
  rw [List.foldl_append]
  rfl

theorem lt_nextId (t : Table) : ∀ r ∈ t, r.id < t.nextId := by
  intro r hr
  have h := (maxFrom_ge t 0).2 r hr
  unfold Table.nextId
  omega

theorem maxId_insert (t : Table) (cols : JSObj) :
    Table.maxId (t ++ [⟨t.nextId, cols⟩]) = some t.nextId := by
  cases t with
  | nil => rfl
  | cons a t =>
    show some (Table.maxFrom a.id (t ++ [⟨Table.nextId (a :: t), cols⟩])) = _
    rw [maxFrom_concat]
    congr 1
    apply max_eq_right
    rcases maxFrom_eq_or_mem t a.id with h | ⟨r, hr, hrid⟩
    · rw [h]
      exact le_of_lt (lt_nextId (a :: t) a (List.mem_cons_self _ _))
    · rw [← hrid]
      exact le_of_lt (lt_nextId (a :: t) r (List.mem_cons_of_mem _ hr))

theorem maxId_spec (t : Table) (m : Int) (h : t.maxId = some m) :
    (∃ r ∈ t, r.id = m) ∧ ∀ r ∈ t, r.id ≤ m := by
  cases t with
  | nil => cases h
  | cons a t =>
    have hm : Table.maxFrom a.id t = m := Option.some.inj h
    rw [← hm]
    refine ⟨?_, ?_⟩
    · rcases maxFrom_eq_or_mem t a.id with h1 | ⟨r, hr, hrid⟩
      · exact ⟨a, List.mem_cons_self _ _, h1.symm⟩
      · exact ⟨r, List.mem_cons_of_mem _ hr, hrid⟩
    · intro r hr
      rcases List.mem_cons.mp hr with rfl | hr
      · exact (maxFrom_ge t r.id).1
      · exact (maxFrom_ge t a.id).2 r hr

theorem lookup_map_pair (f : String → JVal) (l : List String) (k : String) :
    (l.map fun c => (c, f c)).lookup k = if k ∈ l then some (f k) else none := by
  induction l with
  | nil => simp
  | cons a l ih =>
    rw [List.map_cons, List.lookup_cons]
    by_cases hka : k = a
    · subst hka
      simp
    · have hb : (k == a) = false := by simpa using hka
      rw [hb]
      simp only [ih, List.mem_cons, hka, false_or]

theorem lookup_assignments (R : Resource) (body : JSObj) (k : String) :
    (R.assignments body).lookup k =
      if k ∈ R.columns then some ((body.lookup k).getD JVal.null) else none := by
  unfold Resource.assignments
  exact lookup_map_pair (fun c => (body.lookup c).getD JVal.null) R.columns k

theorem id_not_column (R : Resource) : "id" ∉ R.columns := by
  cases R <;> decide

theorem selectById_concat_new (t : Table) (x : Record) (h : ∀ r ∈ t, r.id ≠ x.id) :
    Table.selectById (t ++ [x]) x.id = [x.toRow] := by
  unfold Table.selectById
  have hnil : t.filter (fun r => decide (r.id = x.id)) = [] := by
    rw [List.filter_eq_nil_iff]
    intro r hr
    simpa using h r hr
  rw [List.filter_append, hnil]
  simp

theorem lookup_toRow_id (x : Record) : x.toRow.lookup "id" = some (JVal.num x.id) := by
  unfold Record.toRow
  exact List.lookup_cons_self

theorem lookup_toRow_of_ne (x : Record) (k : String) (hk : k ≠ "id") :
    x.toRow.lookup k = x.cols.lookup k := by
  unfold Record.toRow
  have hb : (k == "id") = false := by simpa using hk
  rw [List.lookup_cons, hb]

theorem column_ne_id (R : Resource) {c : String} (hc : c ∈ R.columns) : c ≠ "id" := by
  intro h
  rw [h] at hc
  exact id_not_column R hc

/-! ## Round trips over the model store: claims -/

/-- C11. Whenever the store reports no error, update-by-id answers 200 with the fixed
acknowledgement text of the resource, and so does delete-by-id with its own text; the
response is the same for any two store results (in particular for zero and for one
affected row) and any two requests. -/
theorem update_delete_ack_ignores_results (R : Resource) (req req2 : Request)
    (results results2 : OkPacket) :
    updateCallback R req none results = ⟨200, [Body.text R.updatedText]⟩ ∧
    deleteCallback R req none results = ⟨200, [Body.text R.deletedText]⟩ ∧
    updateCallback R req none results = updateCallback R req2 none results2 ∧
    deleteCallback R req none results = deleteCallback R req2 none results2 ∧
    updateCallback R req none ⟨0, 0, 0⟩ = updateCallback R req none ⟨0, 1, 1⟩ ∧
    deleteCallback R req none ⟨0, 0, 0⟩ = deleteCallback R req none ⟨0, 1, 0⟩ :=
  ⟨rfl, rfl, rfl, rfl, rfl, rfl⟩

/-- C12, counterexample. POST /ventas on the empty table with a body that carries, besides
the four columns, a field `nota`: the create response has id 1, and GET /ventas/1 answers
200 with a record that has no field `nota`, so it is not equal to the submitted fields. -/
theorem create_read_drops_unknown_field :
    ∃ obj rec : JSObj,
      (postCreate Resource.ventas [] ⟨exampleVentaBody, 0⟩).2 = ⟨201, [Body.json obj]⟩ ∧
      obj.lookup "id" = some (JVal.num 1) ∧
      getById Resource.ventas (postCreate Resource.ventas [] ⟨exampleVentaBody, 0⟩).1 ⟨[], 1⟩ =
        ⟨200, [Body.json rec]⟩ ∧
      exampleVentaBody.lookup "nota" = some (JVal.str "x") ∧
      rec.lookup "nota" = none := by
  refine ⟨spread [("id", JVal.num 1)] exampleVentaBody,
    Record.toRow ⟨1, Resource.ventas.assignments exampleVentaBody⟩, rfl, ?_, rfl, ?_, ?_⟩
  · simp [spread, exampleVentaBody, List.lookup]
  · simp [exampleVentaBody, List.lookup]
  · rw [lookup_toRow_of_ne _ _ (by decide), lookup_assignments]
    rw [if_neg (by decide)]

/-- C12, amended. Over a model store that assigns a fresh id on INSERT and answers
SELECT by id exactly, for each resource and every body without a field `id`: the create
response is 201 with the assigned id, and read-by-id on that id answers 200 with a record
that has this id, holds for every column of the resource the submitted value of the field of
that name (NULL for a field that was not submitted), and has no other field. Hence every
submitted field that is a column is read back with its submitted value. -/
theorem create_then_read_columns (R : Resource) (t : Table) (req : Request)
    (hnoid : req.body.lookup "id" = none) :
    ∃ (n : Int) (obj rec : JSObj),
      (postCreate R t req).2 = ⟨201, [Body.json obj]⟩ ∧
      obj.lookup "id" = some (JVal.num n) ∧
      (∀ r ∈ t, r.id ≠ n) ∧
      (∀ req2 : Request, req2.id = n →
        getById R (postCreate R t req).1 req2 = ⟨200, [Body.json rec]⟩) ∧
      rec.lookup "id" = some (JVal.num n) ∧
      (∀ c ∈ R.columns, rec.lookup c = some ((req.body.lookup c).getD JVal.null)) ∧
      (∀ (k : String) (v : JVal), k ∈ R.columns → req.body.lookup k = some v →
        rec.lookup k = some v) ∧
      (∀ (k : String) (v : JVal), rec.lookup k = some v → k = "id" ∨ k ∈ R.columns) := by
  have hfresh : ∀ r ∈ t, r.id ≠ t.nextId := fun r hr => ne_of_lt (lt_nextId t r hr)
  have hcols : ∀ c ∈ R.columns,
      (Record.toRow ⟨t.nextId, R.assignments req.body⟩).lookup c =
        some ((req.body.lookup c).getD JVal.null) := by
    intro c hc
    rw [lookup_toRow_of_ne _ _ (column_ne_id R hc), lookup_assignments, if_pos hc]
  refine ⟨t.nextId, spread [("id", JVal.num t.nextId)] req.body,
    Record.toRow ⟨t.nextId, R.assignments req.body⟩, rfl, ?_, hfresh, ?_, ?_, hcols, ?_, ?_⟩
  · rw [lookup_spread, hnoid]
    rfl
  · intro req2 h2
    unfold getById postCreate Table.insert
    rw [h2]
    have hsel := selectById_concat_new t ⟨t.nextId, R.assignments req.body⟩ hfresh
    simp only at hsel
    rw [hsel]
    rfl
  · exact lookup_toRow_id _
  · intro k v hk hv
    rw [hcols k hk, hv]
    rfl
  · intro k v hkv
    by_cases hk : k = "id"
    · exact Or.inl hk
    · right
      rw [lookup_toRow_of_ne _ _ hk, lookup_assignments] at hkv
      by_contra hnot
      rw [if_neg hnot] at hkv
      cases hkv

/-- Witness of C12 as amended: a client created in a table that holds the row of id 3. -/
theorem create_then_read_columns_witness :
    (⟨[("dpi", JVal.str "123"), ("nombre", JVal.str "Ana")], 0⟩ : Request).body.lookup "id" = none ∧
    ∃ rec : JSObj,
      getById Resource.clientes
        (postCreate Resource.clientes [⟨3, []⟩]
          ⟨[("dpi", JVal.str "123"), ("nombre", JVal.str "Ana")], 0⟩).1 ⟨[], 4⟩ =
        ⟨200, [Body.json rec]⟩ ∧
      rec.lookup "id" = some (JVal.num 4) ∧
      rec.lookup "nombre" = some (JVal.str "Ana") := by
  have h0 : (⟨[("dpi", JVal.str "123"), ("nombre", JVal.str "Ana")], 0⟩ : Request).body.lookup
      "id" = none := by
    simp [List.lookup]
  obtain ⟨n, obj, rec, hpost, hid, _, hget, hrid, _, hecho, _⟩ :=
    create_then_read_columns Resource.clientes [⟨3, []⟩]
      ⟨[("dpi", JVal.str "123"), ("nombre", JVal.str "Ana")], 0⟩ h0
  have hobj : obj = spread [("id", JVal.num 4)] [("dpi", JVal.str "123"), ("nombre", JVal.str "Ana")] := by
    have h1 : (postCreate Resource.clientes [⟨3, []⟩]
        ⟨[("dpi", JVal.str "123"), ("nombre", JVal.str "Ana")], 0⟩).2 =
        ⟨201, [Body.json (spread [("id", JVal.num 4)]
          [("dpi", JVal.str "123"), ("nombre", JVal.str "Ana")])]⟩ := rfl
    rw [h1] at hpost
    simpa using hpost.symm
  have hn : n = 4 := by
    rw [hobj] at hid
    simp [spread, List.lookup] at hid
    exact hid.symm
  subst hn
  refine ⟨h0, rec, hget ⟨[], 4⟩ rfl, hrid, ?_⟩
  exact hecho "nombre" (JVal.str "Ana") (by decide) (by simp [List.lookup])

theorem selectById_deleteById (t : Table) (d i : Int) :
    Table.selectById (t.deleteById d).1 i = if i = d then [] else Table.selectById t i := by
  unfold Table.selectById Table.deleteById
  rw [List.filter_filter]
  by_cases h : i = d
  · rw [if_pos h]
    have hnil : t.filter (fun r => decide (r.id = i) && decide (r.id ≠ d)) = [] := by
      rw [List.filter_eq_nil_iff]
      intro r _
      simp [h]
    rw [hnil]
    rfl
  · rw [if_neg h]
    congr 1
    apply List.filter_congr
    intro r _
    by_cases hr : r.id = i
    · simp [hr, h]
    · simp [hr]

/-- C13. After DELETE /R/:id on a healthy store, which answers 200, GET /R/:id answers 404,
and read-by-id of every other id answers what it answered before the delete (for any table,
so in particular for one with unique ids). -/
theorem delete_then_read (R : Resource) (t : Table) (req : Request) :
    (deleteById R t req).2 = ⟨200, [Body.text R.deletedText]⟩ ∧
    (∀ req2 : Request, req2.id = req.id →
      getById R (deleteById R t req).1 req2 = ⟨404, [Body.text R.notFoundText]⟩) ∧
    (∀ req2 : Request, req2.id ≠ req.id →
      getById R (deleteById R t req).1 req2 = getById R t req2) := by
  refine ⟨rfl, ?_, ?_⟩
  · intro req2 h2
    show readByIdCallback R req2 none (Table.selectById (t.deleteById req.id).1 req2.id) = _
    rw [selectById_deleteById, if_pos h2]
    rfl
  · intro req2 h2
    show readByIdCallback R req2 none (Table.selectById (t.deleteById req.id).1 req2.id) = _
    rw [selectById_deleteById, if_neg h2]
    rfl

theorem selectById_updateById (t : Table) (i : Int) (cols : JSObj) :
    Table.selectById (t.updateById i cols).1 i =
      (t.filter (fun r => decide (r.id = i))).map
        (fun r => Record.toRow ⟨i, spread r.cols cols⟩) := by
  unfold Table.selectById Table.updateById
  induction t with
  | nil => rfl
  | cons a t ih =>
    simp only [List.map_cons, List.filter_cons] at ih ⊢
    by_cases ha : a.id = i
    · simp only [ha, if_true, decide_True]
      rw [List.map_cons, ih, List.map_cons]
    · simp only [ha, if_false, decide_False]
      exact ih

/-- C14. After PUT /R/:id on a healthy store, with a body that gives every column of the
resource and an id that some row has, the PUT answers 200 and GET /R/:id answers 200 with a
record in which every column holds the newly submitted value, whatever the row held before,
and whose `id` is the requested one. -/
theorem update_then_read (R : Resource) (t : Table) (req : Request)
    (hexists : ∃ r ∈ t, r.id = req.id)
    (hfull : ∀ c ∈ R.columns, ∃ v, req.body.lookup c = some v) :
    (putById R t req).2 = ⟨200, [Body.text R.updatedText]⟩ ∧
    ∃ rec : JSObj,
      (∀ req2 : Request, req2.id = req.id →
        getById R (putById R t req).1 req2 = ⟨200, [Body.json rec]⟩) ∧
      (∀ c ∈ R.columns, rec.lookup c = req.body.lookup c) ∧
      rec.lookup "id" = some (JVal.num req.id) := by
  refine ⟨rfl, ?_⟩
  obtain ⟨r0, hr0, hid0⟩ := hexists
  have hne : t.filter (fun r => decide (r.id = req.id)) ≠ [] := by
    intro hnil
    rw [List.filter_eq_nil_iff] at hnil
    exact hnil r0 hr0 (by simpa using hid0)
  obtain ⟨a, rest, hfil⟩ := List.exists_cons_of_ne_nil hne
  refine ⟨Record.toRow ⟨req.id, spread a.cols (R.assignments req.body)⟩, ?_, ?_, ?_⟩
  · intro req2 h2
    show readByIdCallback R req2 none
      (Table.selectById (t.updateById req.id (R.assignments req.body)).1 req2.id) = _
    rw [h2, selectById_updateById, hfil]
    rfl
  · intro c hc
    obtain ⟨v, hv⟩ := hfull c hc
    rw [lookup_toRow_of_ne _ _ (column_ne_id R hc), lookup_spread, lookup_assignments,
      if_pos hc, hv]
    rfl
  · exact lookup_toRow_id _

/-- Witness of C14: the sale of id 1 is updated with a full body. -/
theorem update_then_read_witness :
    (∃ r ∈ ([⟨1, [("total", JVal.num 5)]⟩] : Table), r.id = (⟨exampleVentaBody, 1⟩ : Request).id) ∧
    (∀ c ∈ Resource.ventas.columns, ∃ v, exampleVentaBody.lookup c = some v) ∧
    ∃ rec : JSObj,
      getById Resource.ventas
        (putById Resource.ventas [⟨1, [("total", JVal.num 5)]⟩] ⟨exampleVentaBody, 1⟩).1 ⟨[], 1⟩ =
        ⟨200, [Body.json rec]⟩ ∧
      rec.lookup "total" = some (JVal.num 100) := by
  have h1 : ∃ r ∈ ([⟨1, [("total", JVal.num 5)]⟩] : Table),
      r.id = (⟨exampleVentaBody, 1⟩ : Request).id :=
    ⟨⟨1, [("total", JVal.num 5)]⟩, List.mem_singleton.mpr rfl, rfl⟩
  have h2 : ∀ c ∈ Resource.ventas.columns, ∃ v, exampleVentaBody.lookup c = some v := by
    intro c hc
    simp only [Resource.columns, List.mem_cons, List.mem_singleton, List.not_mem_nil,
      or_false] at hc
    rcases hc with rfl | rfl | rfl | rfl <;> simp [exampleVentaBody, List.lookup]
  obtain ⟨_, rec, hget, hcols, _⟩ :=
    update_then_read Resource.ventas [⟨1, [("total", JVal.num 5)]⟩] ⟨exampleVentaBody, 1⟩ h1 h2
  refine ⟨h1, h2, rec, hget ⟨[], 1⟩ rfl, ?_⟩
  rw [hcols "total" (by decide)]
  simp [exampleVentaBody, List.lookup]

/-- C15. GET /ventas/maximo-id on a healthy model store answers 200 with
`maximo_id_venta: 0` when the table of sales is empty, and with the largest stored id
otherwise (an id of a stored sale that no stored id exceeds); right after a POST /ventas it
answers the identity that the store assigned to the sale just inserted. -/
theorem maximo_id_venta (t : Table) (req : Request) :
    getMaximoId [] req = ⟨200, [Body.json (some [("maximo_id_venta", JVal.num 0)])]⟩ ∧
    (t ≠ [] → ∃ m : Int,
      getMaximoId t req = ⟨200, [Body.json (some [("maximo_id_venta", JVal.num m)])]⟩ ∧
      (∃ r ∈ t, r.id = m) ∧ ∀ r ∈ t, r.id ≤ m) ∧
    (∀ post : Request,
      getMaximoId (postCreate Resource.ventas t post).1 req =
        ⟨200, [Body.json (some [("maximo_id_venta",
          JVal.num (t.insert (Resource.ventas.assignments post.body)).2.insertId)])]⟩) := by
  refine ⟨rfl, ?_, ?_⟩
  · intro hne
    cases hmax : t.maxId with
    | none =>
      cases t with
      | nil => exact absurd rfl hne
      | cons a t => cases hmax
    | some m =>
      refine ⟨m, ?_, maxId_spec t m hmax⟩
      unfold getMaximoId Table.selectMaxId
      rw [hmax]
      rfl
  · intro post
    unfold getMaximoId Table.selectMaxId postCreate Table.insert
    simp only
    rw [maxId_insert]
    rfl

theorem matchesByStringEquality_objectFormattingStore (users : List UsuarioRec) :
    MatchesByStringEquality users (objectFormattingStore users) :=
  fun _ _ => rfl

/-- C16, counterexample. The store `objectFormattingStore` matches two bound strings by
exact string equality. The request with `usuario` "ana" and, as `pass`, the object with
`pass: 1` has the pair of no stored user (the stored password is "secreto"), yet it is
answered 200, not 401, with the record of "ana" and her stored password. -/
theorem object_pass_is_answered_200 :
    MatchesByStringEquality exampleUsers (objectFormattingStore exampleUsers) ∧
    (∀ r ∈ exampleUsers,
      ¬ (exampleObjectLogin.body.lookup "usuario" = some (JVal.str r.usuario) ∧
        exampleObjectLogin.body.lookup "pass" = some (JVal.str r.pass))) ∧
    (postUsuarios (objectFormattingStore exampleUsers) exampleObjectLogin).statusCode = 200 ∧
    (postUsuarios (objectFormattingStore exampleUsers) exampleObjectLogin).statusCode ≠ 401 ∧
    ∃ rec : JSObj,
      postUsuarios (objectFormattingStore exampleUsers) exampleObjectLogin =
        ⟨200, [Body.json rec]⟩ ∧
      rec.lookup "pass" = some (JVal.str "secreto") := by
  have hres : postUsuarios (objectFormattingStore exampleUsers) exampleObjectLogin =
      ⟨200, [Body.json (userData (UsuarioRec.toRow ⟨1, "ana", "secreto"⟩))]⟩ := by
    rfl
  refine ⟨matchesByStringEquality_objectFormattingStore exampleUsers, ?_, ?_, ?_, ?_⟩
  · intro r _ h
    have h2 := h.2
    simp [exampleObjectLogin, List.lookup] at h2
  · rw [hres]
  · rw [hres]
    exact (by decide : (200 : Nat) ≠ 401)
  · refine ⟨_, hres, ?_⟩
    simp [userData, UsuarioRec.toRow, List.lookup]

/-- C16, amended. Over any store that matches `usuario` and `pass` by exact string
equality, for a request whose `usuario` and `pass` are the strings `u` and `p`: when a
stored user has this pair the answer is 200 with a record whose `usuario` is `u` and whose
`pass` is `p`; when no stored user has it (one of them wrong, for instance) the answer is
401 with the fixed text, not 500. -/
theorem validar_usuario_outcomes (users : List UsuarioRec) (db : UsuarioStore)
    (hdb : MatchesByStringEquality users db) (req : Request) (u p : String)
    (hu : req.body.lookup "usuario" = some (JVal.str u))
    (hp : req.body.lookup "pass" = some (JVal.str p)) :
    ((∃ r ∈ users, r.usuario = u ∧ r.pass = p) →
      ∃ rec : JSObj, postUsuarios db req = ⟨200, [Body.json rec]⟩ ∧
        rec.lookup "usuario" = some (JVal.str u) ∧ rec.lookup "pass" = some (JVal.str p)) ∧
    ((∀ r ∈ users, ¬ (r.usuario = u ∧ r.pass = p)) →
      postUsuarios db req = ⟨401, [Body.text "Usuario o contraseña incorrectos"]⟩ ∧
      (postUsuarios db req).statusCode ≠ 500) := by
  have hpost : postUsuarios db req = usuariosCallback req none (matchUsuario users u p) := by
    unfold postUsuarios
    rw [hu, hp]
    simp only [Option.getD_some]
    rw [hdb u p]
  refine ⟨?_, ?_⟩
  · intro hex
    obtain ⟨r0, hr0, hu0, hp0⟩ := hex
    have hne : users.filter (fun r => decide (r.usuario = u ∧ r.pass = p)) ≠ [] := by
      intro hnil
      rw [List.filter_eq_nil_iff] at hnil
      exact hnil r0 hr0 (by simp [hu0, hp0])
    obtain ⟨a, rest, hfil⟩ := List.exists_cons_of_ne_nil hne
    have ha : a.usuario = u ∧ a.pass = p := by
      have hmem : a ∈ users.filter (fun r => decide (r.usuario = u ∧ r.pass = p)) := by
        rw [hfil]
        exact List.mem_cons_self _ _
      simpa using (List.mem_filter.mp hmem).2
    refine ⟨userData a.toRow, ?_, ?_, ?_⟩
    · rw [hpost]
      unfold matchUsuario
      rw [hfil]
      rfl
    · rw [← ha.1]
      simp [userData, UsuarioRec.toRow, List.lookup]
    · rw [← ha.2]
      simp [userData, UsuarioRec.toRow, List.lookup]
  · intro hno
    have hsel : matchUsuario users u p = [] := by
      unfold matchUsuario
      rw [List.map_eq_nil_iff, List.filter_eq_nil_iff]
      intro r hr hdec
      exact hno r hr (by simpa using hdec)
    have hres : postUsuarios db req =
        ⟨401, [Body.text "Usuario o contraseña incorrectos"]⟩ := by
      rw [hpost, hsel]
      rfl
    refine ⟨hres, ?_⟩
    rw [hres]
    exact (by decide : (401 : Nat) ≠ 500)

/-- Witness of C16 as amended: the stored user "ana" with her password, and with a wrong
one. -/
theorem validar_usuario_outcomes_witness :
    MatchesByStringEquality exampleUsers (objectFormattingStore exampleUsers) ∧
    (∃ rec : JSObj,
      postUsuarios (objectFormattingStore exampleUsers)
        ⟨[("usuario", JVal.str "ana"), ("pass", JVal.str "secreto")], 0⟩ =
        ⟨200, [Body.json rec]⟩ ∧
      rec.lookup "usuario" = some (JVal.str "ana") ∧
      rec.lookup "pass" = some (JVal.str "secreto")) ∧
    postUsuarios (objectFormattingStore exampleUsers)
      ⟨[("usuario", JVal.str "ana"), ("pass", JVal.str "otra")], 0⟩ =
      ⟨401, [Body.text "Usuario o contraseña incorrectos"]⟩ := by
  have hdb := matchesByStringEquality_objectFormattingStore exampleUsers
  refine ⟨hdb, ?_, ?_⟩
  · exact (validar_usuario_outcomes exampleUsers _ hdb
      ⟨[("usuario", JVal.str "ana"), ("pass", JVal.str "secreto")], 0⟩ "ana" "secreto"
      (by simp [List.lookup]) (by simp [List.lookup])).1
      ⟨⟨1, "ana", "secreto"⟩, by simp [exampleUsers], rfl, rfl⟩
  · exact ((validar_usuario_outcomes exampleUsers _ hdb
      ⟨[("usuario", JVal.str "ana"), ("pass", JVal.str "otra")], 0⟩ "ana" "otra"
      (by simp [List.lookup]) (by simp [List.lookup])).2
      (by simp [exampleUsers])).1

/-! ## All handlers: claims -/

theorem callback_sends_once (h : Handler) (req : HttpRequest) (err : Option StoreError)
    (results : h.Results) :
    ∃ res : Res h.Payload, h.callback req err results = some res ∧ res.sent.length = 1 := by
  cases h with
  | create R => cases err <;> exact ⟨_, rfl, rfl⟩
  | list R => cases err <;> exact ⟨_, rfl, rfl⟩
  | readById R =>
    cases err with
    | some e => exact ⟨_, rfl, rfl⟩
    | none =>
      cases results with
      | nil => exact ⟨_, rfl, rfl⟩
      | cons row rest => exact ⟨_, rfl, rfl⟩
  | update R => cases err <;> exact ⟨_, rfl, rfl⟩
  | delete R => cases err <;> exact ⟨_, rfl, rfl⟩
  | productoPorCodigo =>
    cases err with
    | some e => exact ⟨_, rfl, rfl⟩
    | none =>
      cases results with
      | nil => exact ⟨_, rfl, rfl⟩
      | cons row rest => exact ⟨_, rfl, rfl⟩
  | maximoId => cases err <;> exact ⟨_, rfl, rfl⟩
  | validarUsuario =>
    cases err with
    | some e => exact ⟨_, rfl, rfl⟩
    | none =>
      cases results with
      | nil => exact ⟨_, rfl, rfl⟩
      | cons row rest => exact ⟨_, rfl, rfl⟩
  | facturaciones =>
    cases err with
    | some e => exact ⟨_, rfl, rfl⟩
    | none => exact ⟨_, facturacionesCallback_ok results, rfl⟩

/-- C17. For every handler of the eight routers there is one fixed text such that, for
every request, every store error and whatever `results` holds, the response is status 500
with that text as its only body; so the response is the same for any two errors. -/
theorem store_error_gives_fixed_500 (h : Handler) :
    (∃ text : String, ∀ (req : HttpRequest) (e : StoreError) (results : h.Results),
      h.callback req (some e) results = some ⟨500, [Body.text text]⟩) ∧
    (∀ (req : HttpRequest) (e1 e2 : StoreError) (r1 r2 : h.Results),
      h.callback req (some e1) r1 = h.callback req (some e2) r2) := by
  cases h <;> exact ⟨⟨_, fun _ _ _ => rfl⟩, fun _ _ _ _ _ => rfl⟩

/-- C18. Every run of every handler, against any store and for any request, calls
`req.db.query` exactly once, and its callback, on an error as on a successful result,
does not throw and sends exactly one body; on an error that body is a text, so the error
branch does not go on into the success branch. -/
theorem exactly_one_query_and_response (h : Handler) (req : HttpRequest)
    (db : Query → Option StoreError × h.Results) :
    (h.handle req db).queries.length = 1 ∧
    (∃ res : Res h.Payload, (h.handle req db).response = some res ∧ res.sent.length = 1) ∧
    (∀ (e : StoreError) (results : h.Results),
      ∃ res : Res h.Payload, h.callback req (some e) results = some res ∧
        ∃ text : String, res.sent = [Body.text text]) := by
  refine ⟨rfl, callback_sends_once h req _ _, ?_⟩
  intro e results
  cases h <;> exact ⟨_, rfl, _, rfl⟩

/-- C19. For every handler the SQL text passed to `req.db.query` is one constant string,
the same for any two requests whatever their body and path parameters; a request can only
change the list of bound values. -/
theorem sql_text_is_constant (h : Handler) :
    (∃ sql : String, ∀ req : HttpRequest, (h.query req).sql = sql) ∧
    (∀ req1 req2 : HttpRequest, (h.query req1).sql = (h.query req2).sql) ∧
    (∀ req1 req2 : HttpRequest, (h.query req1).values = (h.query req2).values →
      h.query req1 = h.query req2) := by
  refine ⟨?_, ?_, ?_⟩
  · cases h <;> exact ⟨_, fun _ => rfl⟩
  · intro req1 req2
    cases h <;> rfl
  · intro req1 req2 hv
    cases h <;> simp_all [Handler.query]

theorem routeApp_productos (m : Method) (rest : List String) :
    routeApp m ("productos" :: rest) = routeIn productosRouter m rest := by
  have h2 : lowerChars "productos" ≠ lowerChars "proveedores" := by decide
  have h3 : lowerChars "productos" ≠ lowerChars "usuarios" := by decide
  have h4 : lowerChars "productos" ≠ lowerChars "clientes" := by decide
  have h5 : lowerChars "productos" ≠ lowerChars "config" := by decide
  have h6 : lowerChars "productos" ≠ lowerChars "ventas" := by decide
  have h7 : lowerChars "productos" ≠ lowerChars "detalle" := by decide
  have h8 : lowerChars "productos" ≠ lowerChars "facturaciones" := by decide
  cases hd : routeIn productosRouter m rest <;>
    simp [routeApp, appMounts, routeMounts, hd, h2, h3, h4, h5, h6, h7, h8]

theorem routeIn_productos_codigo (c : String) (hc : c ≠ "") :
    routeIn productosRouter Method.get ["codigo", c] =
      match decodeParam c with
      | some v => Routed.handler Handler.productoPorCodigo [("codigo", v)]
      | none => Routed.badRequest := by
  have hstrip : stripTrailingSlash ["codigo", c] = ["codigo", c] := by
    simp [stripTrailingSlash, hc]
  cases hd : decodeParam c <;>
    simp [routeIn, productosRouter, hstrip, matchSegs, hc, hd]

/-- C20. A GET on /productos/codigo/c with a non-empty segment `c` never matches the
read-by-id route registered before the find-by-code route. When `c` decodes to the value
`v`, the request is dispatched to the find-by-code handler with `codigo = v`, and that
handler queries on the `codigo` column with `v` as sole bound value; when `c` does not
decode, the request is answered 400 and no handler runs. The callback of the handler
answers 500 on a store error, 200 with the first row when there is one, and 404 on an
empty result. -/
theorem producto_por_codigo (c : String) (hc : c ≠ "") :
    matchSegs [Seg.param "id"] (stripTrailingSlash ["codigo", c]) = PathMatch.miss ∧
    (∀ v : String, decodeParam c = some v →
      routeApp Method.get ["productos", "codigo", c] =
        Routed.handler Handler.productoPorCodigo [("codigo", v)] ∧
      dispatchApp Method.get ["productos", "codigo", c] =
        some (Handler.productoPorCodigo, [("codigo", v)]) ∧
      ∀ req : HttpRequest, req.params = [("codigo", v)] →
        Handler.query Handler.productoPorCodigo req =
          ⟨"SELECT * FROM productos WHERE codigo = ?", [JVal.str v]⟩) ∧
    (decodeParam c = none →
      routeApp Method.get ["productos", "codigo", c] = Routed.badRequest ∧
      dispatchApp Method.get ["productos", "codigo", c] = none) ∧
    (∀ (req : HttpRequest) (e : StoreError) (results : List JSObj),
      Handler.callback Handler.productoPorCodigo req (some e) results =
        some ⟨500, [Body.text "Error ejecutando la consulta"]⟩) ∧
    (∀ (req : HttpRequest) (row : JSObj) (rest : List JSObj),
      Handler.callback Handler.productoPorCodigo req none (row :: rest) =
        some ⟨200, [Body.json row]⟩) ∧
    (∀ req : HttpRequest,
      Handler.callback Handler.productoPorCodigo req none [] =
        some ⟨404, [Body.text "Producto no encontrado"]⟩) := by
  have hstrip : stripTrailingSlash ["codigo", c] = ["codigo", c] := by
    simp [stripTrailingSlash, hc]
  have hroute := routeIn_productos_codigo c hc
  refine ⟨?_, ?_, ?_, fun _ _ _ => rfl, fun _ _ _ => rfl, fun _ => rfl⟩
  · rw [hstrip]
    simp [matchSegs]
  · intro v hv
    rw [hv] at hroute
    have happ : routeApp Method.get ["productos", "codigo", c] =
        Routed.handler Handler.productoPorCodigo [("codigo", v)] := by
      rw [routeApp_productos, hroute]
    refine ⟨happ, ?_, ?_⟩
    · unfold dispatchApp
      rw [happ]
    · intro req hp
      simp [Handler.query, HttpRequest.param, hp]
  · intro hnone
    rw [hnone] at hroute
    have happ : routeApp Method.get ["productos", "codigo", c] = Routed.badRequest := by
      rw [routeApp_productos, hroute]
    refine ⟨happ, ?_⟩
    unfold dispatchApp
    rw [happ]

/-- Witness of C20 at the segment `P%20001`, which decodes to the product code `P 001`,
and at the segment `%`, which does not decode. -/
theorem producto_por_codigo_witness :
    "P%20001" ≠ "" ∧
    decodeParam "P%20001" = some "P 001" ∧
    routeApp Method.get ["productos", "codigo", "P%20001"] =
      Routed.handler Handler.productoPorCodigo [("codigo", "P 001")] ∧
    decodeParam "%" = none ∧
    routeApp Method.get ["productos", "codigo", "%"] = Routed.badRequest := by
  have h1 : decodeParam "P%20001" = some "P 001" := by decide
  have h2 : decodeParam "%" = none := by decide
  exact ⟨by decide, h1,
    ((producto_por_codigo "P%20001" (by decide)).2.1 "P 001" h1).1, h2,
    ((producto_por_codigo "%" (by decide)).2.2.1 h2).1⟩

/-! ## Paths, exceptions and shapes: claims -/

/-- C21 (defect). A POST on the documented path /usuarios/validar matches no route of the
application, while a POST on /usuarios reaches the handler that validates `usuario` and
`pass`: the operation is served at /usuarios, not at the path of its Swagger block. -/
theorem validar_not_served_at_documented_path :
    dispatchApp Method.post ["usuarios", "validar"] = none ∧
    dispatchApp Method.post ["usuarios"] = some (Handler.validarUsuario, []) := by
  constructor <;> decide

theorem forEachStep_eq_firstEncounter (st : AggState) (row : Row) :
    forEachStep st row =
      match (firstEncounter st row).ventasMap.lookup row.venta_id with
      | none => none
      | some ref =>
          match (firstEncounter st row).ventas[ref]? with
          | none => none
          | some doc =>
              some { firstEncounter st row with
                ventas := (firstEncounter st row).ventas.set ref
                  { doc with detalles := doc.detalles ++ [detalleOf row] } } :=
  rfl

theorem firstEncounter_finds (pre : List Row) (st : AggState) (row : Row)
    (h : AggInv pre st) :
    ∃ (ref : Nat) (doc : VentaDoc),
      (firstEncounter st row).ventasMap.lookup row.venta_id = some ref ∧
      (firstEncounter st row).ventas[ref]? = some doc ∧
      doc.venta_id = row.venta_id := by
  obtain ⟨hv, _, hs⟩ := h
  cases hl : st.ventasMap.lookup row.venta_id with
  | none =>
    refine ⟨st.ventas.length, shell row, ?_, ?_, rfl⟩
    · simp only [firstEncounter, hl, List.lookup_cons_self]
    · simp [firstEncounter, hl]
  | some ref =>
    obtain ⟨x, hx, hxk⟩ := hs _ _ hl
    refine ⟨ref, docOf pre x, ?_, ?_, hxk⟩
    · simp only [firstEncounter, hl]
    · simp only [firstEncounter, hl]
      rw [hv, groupSpec, List.getElem?_map, hx]
      rfl

/-- C22. No handler raises: for every handler, request, store error or successful result
(join rows carry integer identities), the callback returns with a response sent. In the
aggregation, the pass over any rows ends without exception, and in every state the pass can
reach, for every next row, the lookup after the first-encounter branch finds a document,
which is inside `ventas` and is the one of the `venta_id` of the row, so the push onto
`detalles` has its target. -/
theorem no_handler_raises :
    (∀ (h : Handler) (req : HttpRequest) (err : Option StoreError) (results : h.Results),
      ∃ res : Res h.Payload, h.callback req err results = some res ∧ res.sent ≠ []) ∧
    (∀ rows : List Row, ∃ out : List VentaDoc, groupRows rows = some out) ∧
    (∀ (pre : List Row) (st : AggState) (row : Row),
      pre.foldlM forEachStep AggState.init = some st →
      (∃ (ref : Nat) (doc : VentaDoc),
        (firstEncounter st row).ventasMap.lookup row.venta_id = some ref ∧
        (firstEncounter st row).ventas[ref]? = some doc ∧
        doc.venta_id = row.venta_id) ∧
      ∃ st2 : AggState, forEachStep st row = some st2) := by
  refine ⟨?_, ?_, ?_⟩
  · intro h req err results
    obtain ⟨res, hres, hlen⟩ := callback_sends_once h req err results
    refine ⟨res, hres, ?_⟩
    intro hnil
    rw [hnil] at hlen
    cases hlen
  · intro rows
    exact ⟨groupSpec rows, groupRows_eq rows⟩
  · intro pre st row hreach
    obtain ⟨st1, h1, hinv⟩ := foldlM_forEachStep_inv pre [] AggState.init aggInv_init
    rw [hreach] at h1
    have hst : st = st1 := Option.some.inj h1
    subst hst
    rw [List.nil_append] at hinv
    refine ⟨firstEncounter_finds pre st row hinv, ?_⟩
    obtain ⟨st2, h2, _⟩ := forEachStep_inv pre row st hinv
    exact ⟨st2, h2⟩

theorem find?_of_mem_firstRows (rows : List Row) (x : Row) (hx : x ∈ firstRows rows) :
    rows.find? (fun r => decide (r.venta_id = x.venta_id)) = some x := by
  induction rows with
  | nil => cases hx
  | cons r rs ih =>
    rw [firstRows_cons] at hx
    rcases List.mem_cons.mp hx with rfl | hx
    · simp
    · have hmem := List.mem_filter.mp hx
      have hne : x.venta_id ≠ r.venta_id := by simpa using hmem.2
      rw [List.find?_cons_of_neg _ (by simpa using Ne.symm hne)]
      exact ih hmem.1

/-- C23. For every list of flat join rows and every output document `d`, the input has a
first row with the `venta_id` of `d`, and `venta_id`, `cliente.id`, `cliente.nombre`,
`cliente.dpi`, `vendedor`, `total` and `fecha` of `d` are `venta_id`, `cliente`,
`cliente_nombre`, `dpi`, `vendedor`, `total` and `fecha` of that row; rows that follow,
also any rows appended to the input, leave these fields as they are. -/
theorem facturaciones_shell_of_first_row (rows : List Row) :
    ∃ out : List VentaDoc,
      facturacionesCallback none rows = some ⟨200, [Body.json out]⟩ ∧
      (∀ d ∈ out, ∃ r : Row,
        rows.find? (fun x => decide (x.venta_id = d.venta_id)) = some r ∧
        d.venta_id = r.venta_id ∧ d.cliente.id = r.cliente ∧
        d.cliente.nombre = r.cliente_nombre ∧ d.cliente.dpi = r.dpi ∧
        d.vendedor = r.vendedor ∧ d.total = r.total ∧ d.fecha = r.fecha) ∧
      (∀ more : List Row, ∃ out2 : List VentaDoc,
        facturacionesCallback none (rows ++ more) = some ⟨200, [Body.json out2]⟩ ∧
        ∀ d ∈ out, ∃ d2 ∈ out2, d2.venta_id = d.venta_id ∧ d2.cliente = d.cliente ∧
          d2.vendedor = d.vendedor ∧ d2.total = d.total ∧ d2.fecha = d.fecha) := by
  refine ⟨groupSpec rows, facturacionesCallback_ok rows, ?_, ?_⟩
  · intro d hd
    obtain ⟨x, hx, rfl⟩ := List.mem_map.mp hd
    exact ⟨x, find?_of_mem_firstRows rows x hx, rfl, rfl, rfl, rfl, rfl, rfl, rfl⟩
  · intro more
    refine ⟨groupSpec (rows ++ more), facturacionesCallback_ok _, ?_⟩
    intro d hd
    obtain ⟨x, hx, rfl⟩ := List.mem_map.mp hd
    have hx1 := find?_of_mem_firstRows rows x hx
    have hmem : x.venta_id ∈ (firstRows (rows ++ more)).map Row.venta_id := by
      rw [mem_firstRows_ids_map]
      exact List.mem_map.mpr ⟨x, List.mem_append_left _ (firstRows_subset hx), rfl⟩
    obtain ⟨y, hy, hyx⟩ := List.mem_map.mp hmem
    have hy1 := find?_of_mem_firstRows (rows ++ more) y hy
    rw [hyx, List.find?_append, hx1] at hy1
    have hxy : x = y := Option.some.inj hy1
    subst hxy
    exact ⟨docOf (rows ++ more) x, List.mem_map.mpr ⟨x, hy, rfl⟩, rfl, rfl, rfl, rfl, rfl⟩

theorem routeApp_ventas (m : Method) (rest : List String) :
    routeApp m ("ventas" :: rest) = routeIn ventasRouter m rest := by
  have h1 : lowerChars "ventas" ≠ lowerChars "productos" := by decide
  have h2 : lowerChars "ventas" ≠ lowerChars "proveedores" := by decide
  have h3 : lowerChars "ventas" ≠ lowerChars "usuarios" := by decide
  have h4 : lowerChars "ventas" ≠ lowerChars "clientes" := by decide
  have h5 : lowerChars "ventas" ≠ lowerChars "config" := by decide
  have h6 : lowerChars "ventas" ≠ lowerChars "detalle" := by decide
  have h7 : lowerChars "ventas" ≠ lowerChars "facturaciones" := by decide
  cases hd : routeIn ventasRouter m rest <;>
    simp [routeApp, appMounts, routeMounts, hd, h1, h2, h3, h4, h5, h6, h7]

/-- C24, counterexample. A GET on /ventas/MAXIMO-ID, a single segment other than
`maximo-id`, is dispatched to the maximum-identity handler, not to read-by-id: routes match
literal segments without regard to letter case. And a GET on /ventas/%6Daximo-id is
dispatched to read-by-id with `id = maximo-id`: the literal route compares the segment as
it stands, and the parameter is decoded. -/
theorem ventas_upper_case_maximo_id_not_read_by_id :
    "MAXIMO-ID" ≠ "maximo-id" ∧
    dispatchApp Method.get ["ventas", "MAXIMO-ID"] = some (Handler.maximoId, []) ∧
    dispatchApp Method.get ["ventas", "MAXIMO-ID"] ≠
      some (Handler.readById Resource.ventas, [("id", "MAXIMO-ID")]) ∧
    dispatchApp Method.get ["ventas", "%6Daximo-id"] =
      some (Handler.readById Resource.ventas, [("id", "maximo-id")]) := by
  refine ⟨by decide, by decide, by decide, by decide⟩

/-- C24, amended. A GET on /ventas/maximo-id is dispatched to the maximum-identity handler,
although the `/:id` pattern also matches that path, because the literal route is registered
first and the first matching route answers; so is a GET on any segment equal to `maximo-id`
up to letter case. Every other non-empty single segment `x` is taken by `/:id`: it reaches
read-by-id with `id` the decoded value of `x`, or is answered 400 without a handler when
`x` does not decode. -/
theorem ventas_route_precedence (x : String) :
    routeApp Method.get ["ventas", "maximo-id"] = Routed.handler Handler.maximoId [] ∧
    matchSegs [Seg.param "id"] ["maximo-id"] = PathMatch.hit [("id", "maximo-id")] ∧
    (lowerChars x = lowerChars "maximo-id" →
      routeApp Method.get ["ventas", x] = Routed.handler Handler.maximoId []) ∧
    (x ≠ "" → lowerChars x ≠ lowerChars "maximo-id" →
      (∀ v : String, decodeParam x = some v →
        routeApp Method.get ["ventas", x] =
          Routed.handler (Handler.readById Resource.ventas) [("id", v)]) ∧
      (decodeParam x = none → routeApp Method.get ["ventas", x] = Routed.badRequest)) := by
  refine ⟨by decide, by decide, ?_, ?_⟩
  · intro hx
    have hne : x ≠ "" := by
      intro h0
      rw [h0] at hx
      exact absurd hx (by decide)
    have hstrip : stripTrailingSlash [x] = [x] := by
      simp [stripTrailingSlash, hne]
    rw [routeApp_ventas]
    simp [routeIn, ventasRouter, hstrip, matchSegs, hx]
  · intro hne hx
    have hstrip : stripTrailingSlash [x] = [x] := by
      simp [stripTrailingSlash, hne]
    refine ⟨?_, ?_⟩
    · intro v hv
      rw [routeApp_ventas]
      simp [routeIn, ventasRouter, hstrip, matchSegs, hx, hne, hv]
    · intro hnone
      rw [routeApp_ventas]
      simp [routeIn, ventasRouter, hstrip, matchSegs, hx, hne, hnone]

theorem lookup_userData (row : JSObj) (k : String) :
    (userData row).lookup k =
      if k = "id" ∨ k = "usuario" ∨ k = "pass" then row.lookup k else none := by
  unfold userData
  by_cases h1 : k = "pass"
  · subst h1
    cases hp : List.lookup "pass" row <;> cases hu : List.lookup "usuario" row <;>
      cases hi : List.lookup "id" row <;> simp [List.filterMap, List.lookup, hp, hu, hi]
  · by_cases h2 : k = "usuario"
    · subst h2
      cases hp : List.lookup "pass" row <;> cases hu : List.lookup "usuario" row <;>
        cases hi : List.lookup "id" row <;> simp [List.filterMap, List.lookup, hp, hu, hi]
    · by_cases h3 : k = "id"
      · subst h3
        cases hp : List.lookup "pass" row <;> cases hu : List.lookup "usuario" row <;>
          cases hi : List.lookup "id" row <;> simp [List.filterMap, List.lookup, hp, hu, hi]
      · have b1 : (k == "pass") = false := by simpa using h1
        have b2 : (k == "usuario") = false := by simpa using h2
        have b3 : (k == "id") = false := by simpa using h3
        cases hp : List.lookup "pass" row <;> cases hu : List.lookup "usuario" row <;>
          cases hi : List.lookup "id" row <;>
          simp [List.filterMap, List.lookup, hp, hu, hi, h1, h2, h3, b1, b2, b3]

/-- C25. For every non-empty result the response of user validation is 200 with one JSON
object whose fields are exactly `id`, `usuario` and `pass` with the values of the first row
(all three present when the row has the three columns); no other column of that row is
sent, the rows after the first have no influence, and `pass` is the stored value as it is. -/
theorem usuarios_response_shape (req : Request) (row : JSObj) (rest : List JSObj) :
    ∃ body : JSObj,
      usuariosCallback req none (row :: rest) = ⟨200, [Body.json body]⟩ ∧
      (∀ k : String, body.lookup k =
        if k = "id" ∨ k = "usuario" ∨ k = "pass" then row.lookup k else none) ∧
      (∀ k ∈ ["id", "usuario", "pass"], (row.lookup k).isSome = true →
        (body.lookup k).isSome = true) ∧
      body.lookup "pass" = row.lookup "pass" ∧
      (∀ rest2 : List JSObj,
        usuariosCallback req none (row :: rest2) = usuariosCallback req none (row :: rest)) := by
  refine ⟨userData row, rfl, lookup_userData row, ?_, ?_, fun _ => rfl⟩
  · intro k hk hsome
    rw [lookup_userData]
    simp only [List.mem_cons, List.mem_singleton, List.not_mem_nil, or_false] at hk
    rw [if_pos hk]
    exact hsome
  · rw [lookup_userData]
    simp

/-- C26. In each of the six resource routers: the INSERT text has as many `?` as the
handler binds values, and the bound values are the body fields named by the columns of the
statement, in the order of its column list; the UPDATE text has as many `?` as the handler
binds values, its `column = ?` pairs name the body fields bound, in order, and then `id`,
and the last bound value is the path parameter `id`, for the `WHERE id = ?`. -/
theorem placeholders_match_bound_values (R : Resource) (req : HttpRequest) :
    placeholderCount ((Handler.create R).query req).sql =
      ((Handler.create R).query req).values.length ∧
    ((Handler.create R).query req).values =
      bodyValues (insertColumns ((Handler.create R).query req).sql) req.body ∧
    placeholderCount ((Handler.update R).query req).sql =
      ((Handler.update R).query req).values.length ∧
    (∃ cols : List String,
      columnsBeforeEquals (sqlWords ((Handler.update R).query req).sql) = cols ++ ["id"] ∧
      ((Handler.update R).query req).values = bodyValues cols req.body ++ [req.param "id"]) ∧
    ((Handler.update R).query req).values.getLast? = some (req.param "id") := by
  have hins : insertColumns R.insertSql = R.columns := by cases R <;> decide
  have hupd : columnsBeforeEquals (sqlWords R.updateSql) = R.columns ++ ["id"] := by
    cases R <;> decide
  have hc1 : placeholderCount R.insertSql = R.columns.length := by cases R <;> decide
  have hc2 : placeholderCount R.updateSql = R.columns.length + 1 := by cases R <;> decide
  refine ⟨?_, ?_, ?_, ⟨R.columns, hupd, rfl⟩, ?_⟩
  · show placeholderCount R.insertSql = (bodyValues R.columns req.body).length
    rw [hc1]
    simp [bodyValues]
  · show bodyValues R.columns req.body = bodyValues (insertColumns R.insertSql) req.body
    rw [hins]
  · show placeholderCount R.updateSql =
      (bodyValues R.columns req.body ++ [req.param "id"]).length
    rw [hc2]
    simp [bodyValues]
  · show (bodyValues R.columns req.body ++ [req.param "id"]).getLast? = _
    simp

/-- C27 (defect). With the example configuration (host `localhost`, database
`bd_analisis`, user `root`, empty password, port 3306) the options passed to
`createConnection` are the texts `DB_HOST`, `DB_NAME`, `DB_USER`, `DB_PASSWORD` and
`DB_PORT`, none of them the configured value; and the options are the same for any two
configurations. -/
theorem connection_options_ignore_config :
    (connectionOptions exampleConfig).host = JVal.str "DB_HOST" ∧
    (connectionOptions exampleConfig).host ≠ exampleConfig.DB_HOST ∧
    (connectionOptions exampleConfig).database ≠ exampleConfig.DB_NAME ∧
    (connectionOptions exampleConfig).user ≠ exampleConfig.DB_USER ∧
    (connectionOptions exampleConfig).password ≠ exampleConfig.DB_PASSWORD ∧
    (connectionOptions exampleConfig).port ≠ exampleConfig.DB_PORT ∧
    (∀ cfg1 cfg2 : Config, connectionOptions cfg1 = connectionOptions cfg2) := by
  refine ⟨rfl, ?_, ?_, ?_, ?_, ?_, fun _ _ => rfl⟩ <;>
    simp [connectionOptions, exampleConfig]

/-! ## Algebra of the aggregation: claims -/

theorem firstRows_append (r1 r2 : List Row) :
    firstRows (r1 ++ r2) =
      firstRows r1 ++
        (firstRows r2).filter (fun x => decide (∀ y ∈ r1, y.venta_id ≠ x.venta_id)) := by
  induction r1 with
  | nil =>
    have hall : (firstRows r2).filter
        (fun x => decide (∀ y ∈ ([] : List Row), y.venta_id ≠ x.venta_id)) = firstRows r2 := by
      rw [List.filter_eq_self]
      intro x _
      simp
    rw [List.nil_append, firstRows, hall, List.nil_append]
  | cons a r1 ih =>
    rw [List.cons_append, firstRows_cons, firstRows_cons, ih, List.filter_append,
      List.filter_filter, List.cons_append]
    congr 2
    apply List.filter_congr
    intro x _
    by_cases hax : x.venta_id = a.venta_id
    · simp [hax]
    · have hax2 : ¬ a.venta_id = x.venta_id := fun e => hax e.symm
      simp [hax, hax2]

theorem detallesOf_append (r1 r2 : List Row) (k : Int) :
    detallesOf (r1 ++ r2) k = detallesOf r1 k ++ detallesOf r2 k := by
  simp [detallesOf]

/-- C29. Aggregating `r1 ++ r2` gives the aggregation of `r1` followed by that of `r2`
when the two lists share no `venta_id`; and for any `r1`, `r2` the output for `r1 ++ r2`
begins with the documents of the output for `r1`, in the same order and with the same
sale fields, each `detalles` list of `r1` being an initial part of the corresponding one. -/
theorem aggregation_over_concatenation (r1 r2 : List Row) :
    ∃ out1 out2 out12 : List VentaDoc,
      facturacionesCallback none r1 = some ⟨200, [Body.json out1]⟩ ∧
      facturacionesCallback none r2 = some ⟨200, [Body.json out2]⟩ ∧
      facturacionesCallback none (r1 ++ r2) = some ⟨200, [Body.json out12]⟩ ∧
      ((∀ x ∈ r1, ∀ y ∈ r2, x.venta_id ≠ y.venta_id) → out12 = out1 ++ out2) ∧
      (∃ ext more : List VentaDoc, out12 = ext ++ more ∧
        List.Forall₂ (fun d e => e.venta_id = d.venta_id ∧ e.cliente = d.cliente ∧
          e.vendedor = d.vendedor ∧ e.total = d.total ∧ e.fecha = d.fecha ∧
          ∃ extra : List DetalleDoc, e.detalles = d.detalles ++ extra) out1 ext) := by
  refine ⟨groupSpec r1, groupSpec r2, groupSpec (r1 ++ r2), facturacionesCallback_ok r1,
    facturacionesCallback_ok r2, facturacionesCallback_ok _, ?_, ?_⟩
  · intro hdisj
    unfold groupSpec
    rw [firstRows_append, List.map_append]
    congr 1
    · apply List.map_congr_left
      intro x hx
      have hnil : detallesOf r2 x.venta_id = [] :=
        detallesOf_eq_nil (fun y hy e => hdisj x (firstRows_subset hx) y hy e.symm)
      simp [docOf, detallesOf_append, hnil]
    · have hall : (firstRows r2).filter
          (fun x => decide (∀ y ∈ r1, y.venta_id ≠ x.venta_id)) = firstRows r2 := by
        rw [List.filter_eq_self]
        intro x hx
        simpa using fun y hy => hdisj y hy x (firstRows_subset hx)
      rw [hall]
      apply List.map_congr_left
      intro x hx
      have hnil : detallesOf r1 x.venta_id = [] :=
        detallesOf_eq_nil (fun y hy => hdisj y hy x (firstRows_subset hx))
      simp [docOf, detallesOf_append, hnil]
  · refine ⟨(firstRows r1).map (docOf (r1 ++ r2)),
      ((firstRows r2).filter (fun x => decide (∀ y ∈ r1, y.venta_id ≠ x.venta_id))).map
        (docOf (r1 ++ r2)), ?_, ?_⟩
    · unfold groupSpec
      rw [firstRows_append, List.map_append]
    · unfold groupSpec
      rw [List.forall₂_map_left_iff, List.forall₂_map_right_iff, List.forall₂_same]
      intro x _
      exact ⟨rfl, rfl, rfl, rfl, rfl, detallesOf r2 x.venta_id, detallesOf_append r1 r2 _⟩

theorem firstRows_filter_ne (rs : List Row) (k : Int) :
    firstRows (rs.filter (fun x => decide (x.venta_id ≠ k))) =
      (firstRows rs).filter (fun x => decide (x.venta_id ≠ k)) := by
  induction rs with
  | nil => rfl
  | cons a l ih =>
    by_cases hak : a.venta_id = k
    · rw [List.filter_cons_of_neg (by simpa using hak), ih, firstRows_cons,
        List.filter_cons_of_neg (by simpa using hak), List.filter_filter]
      apply List.filter_congr
      intro x _
      by_cases hx : x.venta_id = k
      · simp [hx]
      · simp [hx, hak]
    · rw [List.filter_cons_of_pos (by simpa using hak), firstRows_cons, ih, firstRows_cons,
        List.filter_cons_of_pos (by simpa using hak), List.filter_filter, List.filter_filter]
      congr 1
      apply List.filter_congr
      intro x _
      exact Bool.and_comm _ _

theorem regroup_cons (r : Row) (rs : List Row) :
    regroup (r :: rs) =
      (r :: rs.filter (fun x => decide (x.venta_id = r.venta_id))) ++
        regroup (rs.filter (fun x => decide (x.venta_id ≠ r.venta_id))) := by
  unfold regroup
  rw [firstRows_cons, List.flatMap_cons, firstRows_filter_ne]
  congr 1
  · simp
  · apply List.flatMap_congr
    intro x hx
    have hne : x.venta_id ≠ r.venta_id := by simpa using (List.mem_filter.mp hx).2
    rw [List.filter_cons_of_neg (by simpa using Ne.symm hne), List.filter_filter]
    apply List.filter_congr
    intro y _
    by_cases hy : y.venta_id = x.venta_id
    · simp [hy, hne]
    · simp [hy]

theorem unflatten_docOf (rows : List Row) (r x : Row) (hid : x.venta_id = r.venta_id)
    (h : x.cliente = r.cliente ∧ x.vendedor = r.vendedor ∧ x.total = r.total ∧
      x.fecha = r.fecha ∧ x.cliente_nombre = r.cliente_nombre ∧ x.dpi = r.dpi) :
    unflatten (docOf rows r) (detalleOf x) = x := by
  obtain ⟨h1, h2, h3, h4, h5, h6⟩ := h
  cases x
  cases r
  simp only at hid h1 h2 h3 h4 h5 h6
  simp [unflatten, docOf, shell, detalleOf, hid, h1, h2, h3, h4, h5, h6]

theorem flattenDocs_groupSpec (rows : List Row)
    (hagree : ∀ x ∈ rows, ∀ y ∈ rows, x.venta_id = y.venta_id →
      x.cliente = y.cliente ∧ x.vendedor = y.vendedor ∧ x.total = y.total ∧
      x.fecha = y.fecha ∧ x.cliente_nombre = y.cliente_nombre ∧ x.dpi = y.dpi) :
    flattenDocs (groupSpec rows) = regroup rows := by
  unfold flattenDocs groupSpec regroup
  rw [List.flatMap_map]
  apply List.flatMap_congr
  intro r hr
  show List.map (unflatten (docOf rows r)) (detallesOf rows r.venta_id) = _
  unfold detallesOf
  rw [List.map_map]
  conv_rhs => rw [← List.map_id (List.filter (fun x => decide (x.venta_id = r.venta_id)) rows)]
  apply List.map_congr_left
  intro x hx
  have hmem := List.mem_filter.mp hx
  have hid : x.venta_id = r.venta_id := by simpa using hmem.2
  exact unflatten_docOf rows r x hid (hagree x hmem.1 r (firstRows_subset hr) hid)

theorem regroup_perm_aux (n : Nat) : ∀ rows : List Row, rows.length ≤ n →
    (regroup rows).Perm rows ∧
    ∀ k : Int, (regroup rows).filter (fun x => decide (x.venta_id = k)) =
      rows.filter (fun x => decide (x.venta_id = k)) := by
  induction n with
  | zero =>
    intro rows hlen
    have h0 : rows = [] := List.length_eq_zero.mp (Nat.le_zero.mp hlen)
    subst h0
    exact ⟨List.Perm.refl _, fun _ => rfl⟩
  | succ n ih =>
    intro rows hlen
    cases rows with
    | nil => exact ⟨List.Perm.refl _, fun _ => rfl⟩
    | cons r rs =>
      have hlen2 : (rs.filter (fun x => decide (x.venta_id ≠ r.venta_id))).length ≤ n :=
        le_trans (List.length_filter_le _ _) (Nat.le_of_succ_le_succ hlen)
      obtain ⟨hperm, hfil⟩ := ih _ hlen2
      rw [regroup_cons]
      refine ⟨?_, ?_⟩
      · rw [List.cons_append]
        apply List.Perm.cons
        have hsplit := List.filter_append_perm (fun x => decide (x.venta_id = r.venta_id)) rs
        have hneg : rs.filter (fun x => !decide (x.venta_id = r.venta_id)) =
            rs.filter (fun x => decide (x.venta_id ≠ r.venta_id)) := by
          apply List.filter_congr
          intro x _
          simp
        rw [hneg] at hsplit
        exact (List.Perm.append_left _ hperm).trans hsplit
      · intro k
        rw [List.filter_append, hfil k, List.filter_filter]
        by_cases hk : r.venta_id = k
        · have h1 : (r :: rs.filter (fun x => decide (x.venta_id = r.venta_id))).filter
              (fun x => decide (x.venta_id = k)) =
              r :: rs.filter (fun x => decide (x.venta_id = k)) := by
            rw [List.filter_cons_of_pos (by simpa using hk), List.filter_filter]
            congr 1
            apply List.filter_congr
            intro x _
            simp [hk]
          have h2 : rs.filter (fun a => decide (a.venta_id = k) &&
              decide (a.venta_id ≠ r.venta_id)) = [] := by
            rw [List.filter_eq_nil_iff]
            intro x _
            simp [hk]
          rw [h1, h2, List.append_nil, List.filter_cons_of_pos (by simpa using hk)]
        · have h1 : (r :: rs.filter (fun x => decide (x.venta_id = r.venta_id))).filter
              (fun x => decide (x.venta_id = k)) = [] := by
            rw [List.filter_eq_nil_iff]
            intro x hx hxk
            have hxk2 : x.venta_id = k := by simpa using hxk
            rcases List.mem_cons.mp hx with rfl | hx
            · exact hk hxk2
            · have hxr : x.venta_id = r.venta_id := by simpa using (List.mem_filter.mp hx).2
              exact hk (hxr.symm.trans hxk2)
          have h2 : rs.filter (fun a => decide (a.venta_id = k) &&
              decide (a.venta_id ≠ r.venta_id)) =
              rs.filter (fun x => decide (x.venta_id = k)) := by
            apply List.filter_congr
            intro x _
            by_cases hx : x.venta_id = k
            · have hkr : ¬ k = r.venta_id := fun e => hk e.symm
              simp [hx, hkr]
            · simp [hx]
          rw [h1, h2, List.nil_append, List.filter_cons_of_neg (by simpa using hk)]

theorem regroup_eq_of_contiguous_aux (n : Nat) : ∀ rows : List Row, rows.length ≤ n →
    (∀ (a b c : List Row) (x y : Row), rows = a ++ x :: (b ++ y :: c) →
      x.venta_id = y.venta_id → ∀ z ∈ b, z.venta_id = x.venta_id) →
    regroup rows = rows := by
  induction n with
  | zero =>
    intro rows hlen _
    have h0 : rows = [] := List.length_eq_zero.mp (Nat.le_zero.mp hlen)
    subst h0
    rfl
  | succ n ih =>
    intro rows hlen hcont
    cases rows with
    | nil => rfl
    | cons r rs =>
      have hsplit := List.takeWhile_append_dropWhile
        (fun x => decide (x.venta_id = r.venta_id)) rs
      have htake : ∀ x ∈ rs.takeWhile (fun x => decide (x.venta_id = r.venta_id)),
          x.venta_id = r.venta_id := by
        intro x hx
        simpa using List.mem_takeWhile_imp hx
      have hdrop : ∀ z ∈ rs.dropWhile (fun x => decide (x.venta_id = r.venta_id)),
          z.venta_id ≠ r.venta_id := by
        intro z hz hzr
        cases hdw : rs.dropWhile (fun x => decide (x.venta_id = r.venta_id)) with
        | nil =>
          rw [hdw] at hz
          cases hz
        | cons h t =>
          have hhead := List.head?_dropWhile_not
            (fun x => decide (x.venta_id = r.venta_id)) rs
          rw [hdw] at hhead
          have hh : h.venta_id ≠ r.venta_id := by simpa using hhead
          rw [hdw] at hz
          rcases List.mem_cons.mp hz with rfl | hzt
          · exact hh hzr
          · obtain ⟨t1, t2, ht⟩ := List.append_of_mem hzt
            have hrows : r :: rs = [] ++ r ::
                ((rs.takeWhile (fun x => decide (x.venta_id = r.venta_id)) ++ h :: t1) ++
                  z :: t2) := by
              rw [List.nil_append, List.append_assoc, List.cons_append, ← ht, ← hdw, hsplit]
            have hall := hcont [] _ t2 r z hrows hzr.symm h
              (List.mem_append_right _ (List.mem_cons_self _ _))
            exact hh hall
      have hfil1 : rs.filter (fun x => decide (x.venta_id = r.venta_id)) =
          rs.takeWhile (fun x => decide (x.venta_id = r.venta_id)) := by
        conv_lhs => rw [← hsplit]
        rw [List.filter_append]
        have e1 : (rs.takeWhile (fun x => decide (x.venta_id = r.venta_id))).filter
            (fun x => decide (x.venta_id = r.venta_id)) =
            rs.takeWhile (fun x => decide (x.venta_id = r.venta_id)) := by
          rw [List.filter_eq_self]
          intro x hx
          simpa using htake x hx
        have e2 : (rs.dropWhile (fun x => decide (x.venta_id = r.venta_id))).filter
            (fun x => decide (x.venta_id = r.venta_id)) = [] := by
          rw [List.filter_eq_nil_iff]
          intro x hx
          simpa using hdrop x hx
        rw [e1, e2, List.append_nil]
      have hfil2 : rs.filter (fun x => decide (x.venta_id ≠ r.venta_id)) =
          rs.dropWhile (fun x => decide (x.venta_id = r.venta_id)) := by
        conv_lhs => rw [← hsplit]
        rw [List.filter_append]
        have e1 : (rs.takeWhile (fun x => decide (x.venta_id = r.venta_id))).filter
            (fun x => decide (x.venta_id ≠ r.venta_id)) = [] := by
          rw [List.filter_eq_nil_iff]
          intro x hx
          simpa using htake x hx
        have e2 : (rs.dropWhile (fun x => decide (x.venta_id = r.venta_id))).filter
            (fun x => decide (x.venta_id ≠ r.venta_id)) =
            rs.dropWhile (fun x => decide (x.venta_id = r.venta_id)) := by
          rw [List.filter_eq_self]
          intro x hx
          simpa using hdrop x hx
        rw [e1, e2, List.nil_append]
      have hlen2 : (rs.dropWhile (fun x => decide (x.venta_id = r.venta_id))).length ≤ n := by
        rw [← hfil2]
        exact le_trans (List.length_filter_le _ _) (Nat.le_of_succ_le_succ hlen)
      have hcont2 : ∀ (a b c : List Row) (x y : Row),
          rs.dropWhile (fun x => decide (x.venta_id = r.venta_id)) = a ++ x :: (b ++ y :: c) →
          x.venta_id = y.venta_id → ∀ z ∈ b, z.venta_id = x.venta_id := by
        intro a b c x y hab
        apply hcont (r :: rs.takeWhile (fun x => decide (x.venta_id = r.venta_id)) ++ a) b c x y
        rw [List.append_assoc, ← hab, List.cons_append, hsplit]
      rw [regroup_cons, hfil1, hfil2, ih _ hlen2 hcont2, List.cons_append, hsplit]

/-- C28. When the rows of one sale agree on the sale fields, flattening the output (one
flat row per document and entry of its `detalles`, in order) gives a permutation of the
input in which the rows of every sale stand in their input order, so the number of entries
of all `detalles` lists is the number of input rows; when moreover the rows of one sale
are contiguous (between two rows of a sale stand only rows of that sale), it gives back
exactly the input list. -/
theorem aggregation_round_trip (rows : List Row)
    (hagree : ∀ x ∈ rows, ∀ y ∈ rows, x.venta_id = y.venta_id →
      x.cliente = y.cliente ∧ x.vendedor = y.vendedor ∧ x.total = y.total ∧
      x.fecha = y.fecha ∧ x.cliente_nombre = y.cliente_nombre ∧ x.dpi = y.dpi) :
    ∃ out : List VentaDoc,
      facturacionesCallback none rows = some ⟨200, [Body.json out]⟩ ∧
      (flattenDocs out).Perm rows ∧
      (∀ k : Int, (flattenDocs out).filter (fun x => decide (x.venta_id = k)) =
        rows.filter (fun x => decide (x.venta_id = k))) ∧
      (out.map (fun d => d.detalles.length)).sum = rows.length ∧
      ((∀ (a b c : List Row) (x y : Row), rows = a ++ x :: (b ++ y :: c) →
          x.venta_id = y.venta_id → ∀ z ∈ b, z.venta_id = x.venta_id) →
        flattenDocs out = rows) := by
  have hflat := flattenDocs_groupSpec rows hagree
  obtain ⟨hperm, hfil⟩ := regroup_perm_aux rows.length rows (le_refl _)
  refine ⟨groupSpec rows, facturacionesCallback_ok rows, ?_, ?_, ?_, ?_⟩
  · rw [hflat]
    exact hperm
  · rw [hflat]
    exact hfil
  · have hlen : (flattenDocs (groupSpec rows)).length = rows.length := by
      rw [hflat]
      exact hperm.length_eq
    rw [← hlen]
    unfold flattenDocs
    rw [List.length_flatMap]
    congr 1
    apply List.map_congr_left
    intro d _
    simp
  · intro hcont
    rw [hflat]
    exact regroup_eq_of_contiguous_aux rows.length rows (le_refl _) hcont

/-- Witness of C28 on `exampleRows`, whose two rows of sale 7 agree on the sale fields. -/
theorem aggregation_round_trip_witness :
    (∀ x ∈ exampleRows, ∀ y ∈ exampleRows, x.venta_id = y.venta_id →
      x.cliente = y.cliente ∧ x.vendedor = y.vendedor ∧ x.total = y.total ∧
      x.fecha = y.fecha ∧ x.cliente_nombre = y.cliente_nombre ∧ x.dpi = y.dpi) ∧
    ∃ out : List VentaDoc,
      facturacionesCallback none exampleRows = some ⟨200, [Body.json out]⟩ ∧
      (flattenDocs out).Perm exampleRows ∧
      (out.map (fun d => d.detalles.length)).sum = 3 := by
  have h : ∀ x ∈ exampleRows, ∀ y ∈ exampleRows, x.venta_id = y.venta_id →
      x.cliente = y.cliente ∧ x.vendedor = y.vendedor ∧ x.total = y.total ∧
      x.fecha = y.fecha ∧ x.cliente_nombre = y.cliente_nombre ∧ x.dpi = y.dpi := by
    simp [exampleRows]
  obtain ⟨out, hout, hperm, _, hsum, _⟩ := aggregation_round_trip exampleRows h
  exact ⟨h, out, hout, hperm, hsum⟩

end Facturacion
